import Mathlib

set_option maxRecDepth 8192

/-!
Verification development for the villv module-resolution engine and plugin
pipeline (packages.ts, plugins/resolve.ts, plugins/index.ts and the shared
utils module).  JavaScript values parsed from JSON are modelled by `JValue`,
JavaScript object property stores by association lists, the Node.js
filesystem and the external libraries (resolve.exports, mlly) by explicit
environment records, and exceptions by `Except String`.  All definitions are
translated from the TypeScript source; every deviation forced by the
shallow embedding (fuel for unbounded recursion, state passing for in-place
mutation) is noted at the definition it concerns.
-/

namespace Villv

/-- Dynamic JSON value as produced by `JSON.parse` on a manifest file. -/
inductive JValue where
  | str (s : String)
  | bool (b : Bool)
  | num (n : Int)
  | arr (elems : List JValue)
  | obj (fields : List (String × JValue))
  | jnull

/-- JavaScript truthiness of a defined value. -/
def JValue.truthy : JValue → Bool
  | .str s => s != ""
  | .bool b => b
  | .num n => n != 0
  | .arr _ => true
  | .obj _ => true
  | .jnull => false

/-- Truthiness of a possibly-undefined value (`none` models `undefined`). -/
def optTruthy (v : Option JValue) : Bool :=
  (v.map JValue.truthy).getD false

/-- Truthiness of a `string | undefined` JavaScript value. -/
def optStrTruthy (v : Option String) : Bool :=
  match v with
  | some s => s != ""
  | none => false

/-- Property lookup on a JavaScript object store (an association list). -/
def objGet {α : Type} (fields : List (String × α)) (key : String) : Option α :=
  (fields.find? (fun p => p.1 == key)).map (fun p => p.2)

/-- Property assignment `o[key] = v` on a JavaScript object store.  The new
binding shadows any older one; lookups see exactly the JavaScript result. -/
def objSet {α : Type} (fields : List (String × α)) (key : String) (v : α) :
    List (String × α) :=
  (key, v) :: fields

/-- Property access `v[key]` where `v` may be any dynamic value; non-objects
have no own properties that the resolver ever reads. -/
def JValue.get : JValue → String → Option JValue
  | .obj fields, key => objGet fields key
  | _, _ => none

/-- The utils `isObject` check (`Object.prototype.toString` is
`[object Object]` exactly for plain objects; arrays and null are not). -/
def JValue.isObj : JValue → Bool
  | .obj _ => true
  | _ => false

/-- JavaScript string coercion, as performed by a template literal. -/
def JValue.coerceString : JValue → String
  | .str s => s
  | .bool true => "true"
  | .bool false => "false"
  | .num n => toString n
  | .arr _ => ""
  | .obj _ => "[object Object]"
  | .jnull => "null"

/-- String coercion of a possibly-undefined value (templates render
`undefined` for it). -/
def jsShow (v : Option JValue) : String :=
  match v with
  | none => "undefined"
  | some w => w.coerceString

/-! ## String helpers mirroring the JavaScript string operations used

(Implemented over character lists rather than through `String.startsWith`,
`String.endsWith` or `String.splitOn`, whose byte-position machinery does
not reduce definitionally; the semantics is the standard one.)
-/

/-- `s.startsWith(p)`. -/
def strStartsWith (s p : String) : Bool :=
  p.toList.isPrefixOf s.toList

/-- `s.endsWith(p)`. -/
def strEndsWith (s p : String) : Bool :=
  p.toList.isSuffixOf s.toList

/-- Worker for `strSplitOnChar`. -/
def splitOnCharGo (c : Char) (current : List Char) : List Char → List String
  | [] => [String.mk current.reverse]
  | x :: rest =>
    if x == c then String.mk current.reverse :: splitOnCharGo c [] rest
    else splitOnCharGo c (x :: current) rest

/-- `s.split(c)` for a single-character separator. -/
def strSplitOnChar (c : Char) (s : String) : List String :=
  splitOnCharGo c [] s.toList

/-- Index of the first occurrence of `pat` (as a character list) in the
list. -/
def subIndexGo (pat : List Char) : List Char → Nat → Option Nat
  | [], i => if pat.isEmpty then some i else none
  | x :: rest, i =>
    if pat.isPrefixOf (x :: rest) then some i else subIndexGo pat rest (i + 1)

/-- `s.indexOf(pat)` (as an `Option`: `none` is JavaScript's `-1`). -/
def strIndexOfSub (s pat : String) : Option Nat :=
  subIndexGo pat.toList s.toList 0

/-- `s.includes(pat)`. -/
def strContainsSub (s pat : String) : Bool :=
  (strIndexOfSub s pat).isSome

/-- `s.indexOf(c)` for a single character. -/
def strIndexOfChar (s : String) (c : Char) : Option Nat :=
  s.toList.findIdx? (fun ch => ch == c)

/-- Replace the first occurrence of `pat` in `s` (JavaScript
`String.prototype.replace` with a plain-string pattern). -/
def strReplaceFirst (s pat rep : String) : String :=
  match strIndexOfSub s pat with
  | none => s
  | some i => s.take i ++ rep ++ s.drop (i + pat.length)

/-- `new Set(xs)` spread back to an array: deduplication keeping the first
occurrence of each element, in order. -/
def jsSetDedup (xs : List String) : List String :=
  (xs.foldl (fun acc x => if acc.contains x then acc else x :: acc) []).reverse

/-- Worker for `splitNewline` over the character list. -/
def splitNewlineGo (current : List Char) : List Char → List String
  | [] => [String.mk current.reverse]
  | '\r' :: '\n' :: rest => String.mk current.reverse :: splitNewlineGo [] rest
  | '\n' :: rest => String.mk current.reverse :: splitNewlineGo [] rest
  | c :: rest => splitNewlineGo (c :: current) rest

/-- `source.split(/\r?\n/)` (the utils `newlineRegex`). -/
def splitNewline (s : String) : List String :=
  splitNewlineGo [] s.toList

/-! ## Node path module (posix flavour)

The resolver runs the Node `path` module, an external collaborator; these
definitions model its documented posix behaviour (`isWindows` is false: the
model host is posix, as `normalizePath` in utils then leaves slashes alone).
-/

/-- Resolve `.` and `..` segments (stack is kept reversed). -/
def normalizeSegs (segs : List String) (isAbs : Bool) : List String :=
  segs.foldl
    (fun acc seg =>
      if seg == "." then acc
      else if seg == ".." then
        match acc with
        | [] => if isAbs then [] else [".."]
        | a :: rest => if a == ".." then seg :: acc else rest
      else seg :: acc)
    []

/-- `path.posix.normalize`. -/
def posixNormalize (p : String) : String :=
  if p == "" then "."
  else
    let isAbs := strStartsWith p "/"
    let trailing := strEndsWith p "/"
    let segs := (strSplitOnChar '/' p).filter (fun s => s != "")
    let body := String.intercalate "/" (normalizeSegs segs isAbs).reverse
    if body == "" then
      if isAbs then "/" else if trailing then "./" else "."
    else (if isAbs then "/" ++ body else body) ++ (if trailing then "/" else "")

/-- `path.posix.join` over a list of parts. -/
def posixJoinList (parts : List String) : String :=
  let joined := String.intercalate "/" (parts.filter (fun s => s != ""))
  if joined == "" then "." else posixNormalize joined

/-- `path.join(a, b)` (posix). -/
def joinPath (a b : String) : String :=
  posixJoinList [a, b]

/-- `path.posix.dirname`. -/
def posixDirname (p : String) : String :=
  if p == "" then "."
  else
    let hasRoot := strStartsWith p "/"
    let rev := p.toList.reverse
    let afterTrail := rev.dropWhile (fun c => c == '/')
    let afterBase := afterTrail.dropWhile (fun c => c != '/')
    if afterBase.length ≤ 1 then (if hasRoot then "/" else ".")
    else if hasRoot && afterBase.length == 2 then "//"
    else String.mk (afterBase.reverse.take (afterBase.length - 1))

/-- `path.posix.extname`. -/
def posixExtname (p : String) : String :=
  let base := ((strSplitOnChar '/' p).getLast?).getD p
  if base == "." || base == ".." then ""
  else
    let rev := base.toList.reverse
    let beforeDot := rev.takeWhile (fun c => c != '.')
    if beforeDot.length == rev.length then ""
    else
      let dotIdx := rev.length - beforeDot.length - 1
      if dotIdx == 0 then "" else String.mk ('.' :: beforeDot.reverse)

/-- `path.isAbsolute` (posix). -/
def posixIsAbsolute (p : String) : Bool :=
  strStartsWith p "/"

/-! ## PackageData and its per-target resolution caches (packages.ts) -/

/-- The `PackageData` record built by `loadPackageData`.  The two resolution
caches are the mutable fields; `hasSideEffects` is a closure over
`packageJson` and is exposed as the derived function
`PackageData.hasSideEffectsOn` below instead of a stored field. -/
structure PackageData where
  directory : String
  packageJson : JValue
  webResolvedImports : List (String × String)
  nodeResolvedImports : List (String × String)

/-- `setResolvedCache` method of `PackageData` (state-passing form of the
in-place property write). -/
def PackageData.setResolvedCache (pd : PackageData) (key entry : String)
    (targetWeb : Bool) : PackageData :=
  if targetWeb then
    { pd with webResolvedImports := objSet pd.webResolvedImports key entry }
  else
    { pd with nodeResolvedImports := objSet pd.nodeResolvedImports key entry }

/-- `getResolvedCache` method of `PackageData`. -/
def PackageData.getResolvedCache (pd : PackageData) (key : String)
    (targetWeb : Bool) : Option String :=
  if targetWeb then objGet pd.webResolvedImports key
  else objGet pd.nodeResolvedImports key

/-! ## Plugin hook sorter (plugins/index.ts) -/

/-- Declared order of an object-form hook entry. -/
inductive HookOrder where
  | pre
  | post
deriving DecidableEq, Repr

/-- A hook entry of a plugin: either a bare handler function or an
object-form entry `{order?, handler}`.  The handler itself is opaque to the
sorter; a tag stands in for it. -/
inductive HookEntry where
  | fnHandler (tag : String)
  | objHandler (order : Option HookOrder) (tag : String)
deriving DecidableEq, Repr

/-- A plugin as the sorter sees it: a name and its hook entries by hook
name. -/
structure Plugin where
  name : String
  hooks : List (String × HookEntry)
deriving DecidableEq, Repr

/-- `plugin[key]`: the plugin's entry for one hook name. -/
def Plugin.hook (p : Plugin) (key : String) : Option HookEntry :=
  objGet p.hooks key

/-- Whether `plugin[key]` is an object-form entry with order `pre`. -/
def hookIsPre (h : Option HookEntry) : Bool :=
  match h with
  | some (.objHandler (some .pre) _) => true
  | _ => false

/-- Whether `plugin[key]` is an object-form entry with order `post`. -/
def hookIsPost (h : Option HookEntry) : Bool :=
  match h with
  | some (.objHandler (some .post) _) => true
  | _ => false

/-- Whether `plugin[key]` is a bare handler (`typeof hook !== 'object'`,
given the hook is present). -/
def hookIsFn (h : Option HookEntry) : Bool :=
  match h with
  | some (.fnHandler _) => true
  | _ => false

/-- `getSortedPluginsBy` from plugins/index.ts: pairs every plugin with its
entry for `key`, drops the ones without the hook, then concatenates the
`order: 'pre'` entries, the non-object entries, and the `order: 'post'`
entries. -/
def getSortedPluginsBy (key : String) (plugins : List Plugin) : List Plugin :=
  let pluginHooks :=
    (plugins.map (fun p => (p, p.hook key))).filter (fun x => x.2.isSome)
  let pre := (pluginHooks.filter (fun x => hookIsPre x.2)).map (fun x => x.1)
  let post := (pluginHooks.filter (fun x => hookIsPost x.2)).map (fun x => x.1)
  let normal := (pluginHooks.filter (fun x => hookIsFn x.2)).map (fun x => x.1)
  pre ++ normal ++ post

/-! ## Code frames (utils: positionToNumber / generateCodeFrame) -/

/-- A line/column position (1-based line, as the utils module produces). -/
structure Position where
  line : Nat
  column : Nat
deriving DecidableEq, Repr

/-- `positionToNumber` from utils: sums the lengths (plus newline) of the
lines before `position.line` and adds the column. -/
def positionToNumber (source : String) (pos : Sum Nat Position) : Nat :=
  match pos with
  | .inl n => n
  | .inr p =>
    let characters :=
      ((splitNewline source).take (p.line - 1)).foldl
        (fun acc line => acc + line.length + 1) 0
    characters + p.column

/-- The `range` constant of the utils module. -/
def codeFrameRange : Nat := 2

/-- One render of `${lineNum}${' '.repeat(max(3 - len, 0))}|  ${lines[j]}`
(when `j` equals `lines.length` the indexing renders `undefined`). -/
def codeFrameLineEntry (lines : List String) (jn : Nat) : String :=
  let lineNum := jn + 1
  let pad := String.mk (List.replicate ((3 - (toString lineNum).length)) ' ')
  toString lineNum ++ pad ++ "|  " ++ ((lines.get? jn).getD "undefined")

/-- The inner `for (let j = i - range; ...)` loop of `generateCodeFrame`,
threading the shared `numCharacters` counter and the accumulated `res`
lines.  The loop condition `j <= i + range || endNum > numCharacters` need
not terminate (the `continue` branch leaves `numCharacters` unchanged), so
the model runs it on fuel. -/
def codeFrameInner (lines : List String) (i startNum endNum : Nat) :
    Nat → Int → Nat → List String → (Nat × List String)
  | 0, _, numChars, res => (numChars, res)
  | fuel + 1, j, numChars, res =>
    if j ≤ (i : Int) + (codeFrameRange : Int) ∨ endNum > numChars then
      if j < 0 ∨ j > (lines.length : Int) then
        codeFrameInner lines i startNum endNum fuel (j + 1) numChars res
      else
        let jn := j.toNat
        let res := res ++ [codeFrameLineEntry lines jn]
        let lineLength := ((lines.get? jn).map String.length).getD 0
        let res :=
          if j == (i : Int) then
            let pad :=
              (max ((startNum : Int) - ((numChars : Int) - lineLength) + 1) 0).toNat
            let caretLen :=
              (max 1
                (if endNum > numChars then (lineLength : Int) - pad
                 else (endNum : Int) - startNum)).toNat
            res ++ ["   |  " ++ String.mk (List.replicate pad ' ')
                      ++ String.mk (List.replicate caretLen '^')]
          else if j > (i : Int) then
            let caretLen :=
              (max (min ((endNum : Int) - numChars) lineLength) 1).toNat
            res ++ ["   |  " ++ String.mk (List.replicate caretLen '^')]
          else res
        codeFrameInner lines i startNum endNum fuel (j + 1)
          (numChars + lineLength + 1) res
    else (numChars, res)

/-- The outer `for (const line of lines)` loop of `generateCodeFrame`:
`numCharacters` and `res` are shared with the inner loop. -/
def codeFrameGo (startNum endNum : Nat) (allLines : List String) :
    List String → Nat → Nat → List String → (Nat × List String)
  | [], _, numChars, res => (numChars, res)
  | line :: rest, i, numChars, res =>
    let numChars1 := numChars + line.length + 1
    let innerFuel := 2 * codeFrameRange + endNum + allLines.length + 8
    let (numChars2, res2) :=
      codeFrameInner allLines i startNum endNum innerFuel
        ((i : Int) - (codeFrameRange : Int)) numChars1 res
    codeFrameGo startNum endNum allLines rest (i + 1) numChars2 res2

/-- The `res` array `generateCodeFrame` accumulates (and then discards). -/
def codeFrameLines (source : String) (start : Sum Nat Position)
    (endPos : Option Nat) : List String :=
  let startNum := positionToNumber source start
  let endNum := endPos.getD startNum
  let lines := splitNewline source
  (codeFrameGo startNum endNum lines lines 0 0 []).2

/-- `generateCodeFrame` from utils.  The source builds `res` but has no
return statement: the function's value is `undefined` (modelled `none`). -/
def generateCodeFrame (source : String) (start : Sum Nat Position)
    (endPos : Option Nat) : Option String :=
  let _res := codeFrameLines source start endPos
  none

/-! ## The external collaborators: filesystem, JSON, resolve.exports inputs

The Node `fs` module, `JSON.parse`, mlly's `hasESMSyntax`,
`@rollup/pluginutils`' `createFilter` and the WHATWG URL parser are external
to the repository; an `Env` record supplies them to the embedded functions.
-/

/-- What `statSync` reports for an existing path. -/
inductive FileKind where
  | file
  | dir
  | other
deriving DecidableEq, Repr

/-- The external collaborators of the resolver. -/
structure Env where
  /-- `tryStatSync(p)` (`none` models a missing path / thrown stat). -/
  stat : String → Option FileKind
  /-- `fs.existsSync`. -/
  fsExists : String → Bool
  /-- `safeRealpathSync` (total: realpath of a path that was seen to exist). -/
  realpath : String → String
  /-- `fs.readFileSync(p, 'utf-8')`: `none` models a thrown ENOENT-class
  error. -/
  readFile : String → Option String
  /-- `JSON.parse`: `none` models a thrown SyntaxError. -/
  jsonParse : String → Option JValue
  /-- mlly's `hasESMSyntax` over a file's source text. -/
  hasESMSyntax : String → Bool
  /-- `createFilter(patterns, null, {resolve: dir})` applied to an id. -/
  createFilter : List String → String → String → Bool

/-! ## packages.ts: loadPackageData and the manifest caches -/

/-- The `PackageCache` `Map` (in-place mutation becomes state passing). -/
def PackageCache : Type := List (String × PackageData)

/-- `loadPackageData`: read and parse the manifest, throwing (as
`Except.error`) when the file is unreadable or the JSON malformed.  The
`hasSideEffects` closure is the derived `PackageData.hasSideEffectsOn`. -/
def loadPackageData (env : Env) (packagePath : String) : Except String PackageData :=
  match env.readFile packagePath with
  | none => .error ("ENOENT: no such file or directory, open " ++ packagePath)
  | some content =>
    match env.jsonParse content with
    | none => .error ("SyntaxError: unexpected token in JSON, " ++ packagePath)
    | some packageJson =>
      .ok { directory := posixDirname packagePath
            packageJson := packageJson
            webResolvedImports := []
            nodeResolvedImports := [] }

/-- The `hasSideEffects` predicate `loadPackageData` builds from the
manifest's `sideEffects` field: a boolean is returned as-is, an array is
turned into glob patterns (a pattern without `/` becomes `**/pattern`) and
fed to `createFilter`, anything else means `true`. -/
def PackageData.hasSideEffectsOn (env : Env) (pd : PackageData) (id : String) : Bool :=
  match pd.packageJson.get "sideEffects" with
  | some (.bool b) => b
  | some (.arr elems) =>
    let finalPackageSideEffects := elems.map (fun e =>
      let s := e.coerceString
      if strContainsSub s "/" then s else "**/" ++ s)
    env.createFilter finalPackageSideEffects pd.directory id
  | _ => true

/-- `traverseBetweenDirs`: call `callback` for every directory from
`longerDirectory` (inclusive) down to `shorterDirectory` (exclusive).  The
source's `while` walks by `path.dirname`; the fuel bounds the walk (a
`dirname` chain from a path of length n reaches its fixpoint within n + 2
steps, so the fuel used by the callers below never runs out). -/
def traverseBetweenDirs (fuel : Nat) (longerDirectory shorterDirectory : String)
    (callback : String → PackageCache → PackageCache) (c : PackageCache) :
    PackageCache :=
  match fuel with
  | 0 => c
  | fuel + 1 =>
    if longerDirectory == shorterDirectory then c
    else
      traverseBetweenDirs fuel (posixDirname longerDirectory) shorterDirectory
        callback (callback longerDirectory c)

/-- The cache key of `findNearestPackageData` (source name kept). -/
def getNearestpackageCacheKey (basedir : String) : String :=
  "fnpd_" ++ basedir

/-- `getFnpdCache`: on a hit, back-fill every directory between
`originalBasedir` and `basedir` with the hit. -/
def getFnpdCache (packageCache : PackageCache) (basedir originalBasedir : String) :
    Option PackageData × PackageCache :=
  match objGet packageCache (getNearestpackageCacheKey basedir) with
  | some pkgData =>
    (some pkgData,
     traverseBetweenDirs (originalBasedir.length + 2) originalBasedir basedir
       (fun dir m => objSet m (getNearestpackageCacheKey dir) pkgData) packageCache)
  | none => (none, packageCache)

/-- `setFnpdCache`. -/
def setFnpdCache (packageCache : PackageCache) (pkgData : PackageData)
    (basedir originalBasedir : String) : PackageCache :=
  traverseBetweenDirs (originalBasedir.length + 2) originalBasedir basedir
    (fun dir m => objSet m (getNearestpackageCacheKey dir) pkgData)
    (objSet packageCache (getNearestpackageCacheKey basedir) pkgData)

/-- The `while (currentDirectory)` loop of `findNearestPackageData`.  As in
the source, the probed path is `path.join(baseDirectory, 'package.json')` —
built from the function argument `baseDirectory`, not from the walking
`currentDirectory` — and any error of the probe (missing file or JSON parse
failure) is caught and the walk continues. -/
def findNearestPackageDataGo (env : Env) (baseDirectory : String) :
    Nat → String → Option PackageCache → Option PackageData × Option PackageCache
  | 0, _, c => (none, c)
  | fuel + 1, currentDirectory, c =>
    if currentDirectory == "" then (none, c)
    else
      let hit : Option PackageData × Option PackageCache :=
        match c with
        | some cc =>
          let r := getFnpdCache cc currentDirectory baseDirectory
          (r.1, some r.2)
        | none => (none, c)
      match hit.1 with
      | some pd => (some pd, hit.2)
      | none =>
        let packagePath := joinPath baseDirectory "package.json"
        match (if env.stat packagePath == some FileKind.file then
                 loadPackageData env packagePath
               else .error "package.json not found") with
        | .ok packageData =>
          let c2 := match hit.2 with
            | some cc =>
              some (setFnpdCache cc packageData currentDirectory baseDirectory)
            | none => none
          (some packageData, c2)
        | .error _ =>
          let nextCurrentDirectory := posixDirname currentDirectory
          if nextCurrentDirectory == currentDirectory then (none, hit.2)
          else findNearestPackageDataGo env baseDirectory fuel nextCurrentDirectory hit.2

/-- `findNearestPackageData` from packages.ts. -/
def findNearestPackageData (env : Env) (baseDirectory : String)
    (packageCache : Option PackageCache) :
    Option PackageData × Option PackageCache :=
  findNearestPackageDataGo env baseDirectory (baseDirectory.length + 2)
    baseDirectory packageCache

/-- Recursion of `findNearestMainPackageData`; the fuel models the call
stack (exhaustion is the `RangeError` an unbounded recursion raises). -/
def findNearestMainPackageDataGo (env : Env) :
    Nat → String → Option PackageCache →
    Except String (Option PackageData × Option PackageCache)
  | 0, _, _ => .error "RangeError: Maximum call stack size exceeded"
  | fuel + 1, basedir, c =>
    match findNearestPackageData env basedir c with
    | (none, c1) => .ok (none, c1)
    | (some nearestPackage, c1) =>
      if optTruthy (nearestPackage.packageJson.get "name") then
        .ok (some nearestPackage, c1)
      else
        findNearestMainPackageDataGo env fuel (posixDirname nearestPackage.directory) c1

/-- `findNearestMainPackageData`: the nearest manifest that has a `name`
field, walking past unnamed ones. -/
def findNearestMainPackageData (env : Env) (basedir : String)
    (packageCache : Option PackageCache) :
    Except String (Option PackageData × Option PackageCache) :=
  findNearestMainPackageDataGo env (basedir.length + 2) basedir packageCache

/-- The cache key of `resolvePackageData`. -/
def getRpdCacheKey (pkgName basedir : String) (preserveSymlinks : Bool) : String :=
  "rpd_" ++ pkgName ++ "_" ++ basedir ++ "_" ++
    (if preserveSymlinks then "true" else "false")

/-- `getRpdCache`. -/
def getRpdCache (packageCache : PackageCache) (pkgName basedir originalBasedir : String)
    (preserveSymlinks : Bool) : Option PackageData × PackageCache :=
  match objGet packageCache (getRpdCacheKey pkgName basedir preserveSymlinks) with
  | some pkgData =>
    (some pkgData,
     traverseBetweenDirs (originalBasedir.length + 2) originalBasedir basedir
       (fun dir m => objSet m (getRpdCacheKey pkgName dir preserveSymlinks) pkgData)
       packageCache)
  | none => (none, packageCache)

/-- `setRpdCache`. -/
def setRpdCache (packageCache : PackageCache) (pkgData : PackageData)
    (pkgName basedir originalBasedir : String) (preserveSymlinks : Bool) :
    PackageCache :=
  traverseBetweenDirs (originalBasedir.length + 2) originalBasedir basedir
    (fun dir m => objSet m (getRpdCacheKey pkgName dir preserveSymlinks) pkgData)
    (objSet packageCache (getRpdCacheKey pkgName basedir preserveSymlinks) pkgData)

/-- The `while (basedir)` loop of `resolvePackageData`: probe
`basedir/node_modules/pkgName/package.json`, realpath it unless symlinks are
preserved, and load it; any error (including a JSON parse failure) is caught
and the walk continues upward. -/
def resolvePackageDataGo (env : Env) (pkgName originalBasedir : String)
    (preserveSymlinks : Bool) :
    Nat → String → Option PackageCache → Option PackageData × Option PackageCache
  | 0, _, c => (none, c)
  | fuel + 1, basedir, c =>
    if basedir == "" then (none, c)
    else
      let hit : Option PackageData × Option PackageCache :=
        match c with
        | some cc =>
          let r := getRpdCache cc pkgName basedir originalBasedir preserveSymlinks
          (r.1, some r.2)
        | none => (none, c)
      match hit.1 with
      | some pd => (some pd, hit.2)
      | none =>
        let pkg := posixJoinList [basedir, "node_modules", pkgName, "package.json"]
        match (if env.fsExists pkg then
                 loadPackageData env
                   (if preserveSymlinks then pkg else env.realpath pkg)
               else .error "not found") with
        | .ok pkgData =>
          let c2 := match hit.2 with
            | some cc =>
              some (setRpdCache cc pkgData pkgName basedir originalBasedir
                preserveSymlinks)
            | none => none
          (some pkgData, c2)
        | .error _ =>
          let nextBasedir := posixDirname basedir
          if nextBasedir == basedir then (none, hit.2)
          else
            resolvePackageDataGo env pkgName originalBasedir preserveSymlinks fuel
              nextBasedir hit.2

/-- `resolvePackageData` from packages.ts (the Yarn-PnP branch is inactive:
`process.versions.pnp` is unset on the modelled host). -/
def resolvePackageData (env : Env) (pkgName basedir : String)
    (preserveSymlinks : Bool) (packageCache : Option PackageCache) :
    Option PackageData × Option PackageCache :=
  resolvePackageDataGo env pkgName basedir preserveSymlinks
    (basedir.length + 2) basedir packageCache

/-! ## utils used by plugins/resolve.ts -/

/-- A `\w` character of the JavaScript regexes. -/
def isWordChar (c : Char) : Bool :=
  c.isAlpha || c.isDigit || c == '_'

/-- `cleanUrl`: strip everything from the first `?` or `#`
(`postfixRegex = /[?#].*$/s`). -/
def cleanUrl (url : String) : String :=
  String.mk (url.toList.takeWhile (fun c => c != '?' && c != '#'))

/-- `splitFileAndPostfix` from plugins/resolve.ts. -/
def splitFileAndPostfix (p : String) : String × String :=
  let file := cleanUrl p
  (file, p.drop file.length)

/-- `bareImportREGEX.test(id)` for
`/^(?![a-zA-Z]:)[\w@](?!.*:\/\/)/`: the first character is a word character
or `@`, it does not open a Windows drive prefix, and `://` does not occur
after the first character (the `.` of the lookahead does not cross line
terminators, so only the remainder up to the first one is searched). -/
def bareImportTest (id : String) : Bool :=
  match id.toList with
  | [] => false
  | c :: rest =>
    (isWordChar c || c == '@') &&
    !(c.isAlpha && rest.head? == some ':') &&
    !(strContainsSub (String.mk (rest.takeWhile (fun ch => ch != '\n' && ch != '\r')))
        "://")

/-- `id.match(deepImportREGEX)` for
`/^([^@][^/]*)\/|^(@[^/]+\/[^/]+)\//`, returning the captured package id
(`deepMatch[1] ?? deepMatch[2]`). -/
def deepImportMatch (id : String) : Option String :=
  match id.toList with
  | [] => none
  | '@' :: rest =>
    let seg1 := rest.takeWhile (fun c => c != '/')
    if seg1.isEmpty then none
    else
      match rest.drop seg1.length with
      | '/' :: rest3 =>
        let seg2 := rest3.takeWhile (fun c => c != '/')
        if seg2.isEmpty then none
        else
          match rest3.drop seg2.length with
          | '/' :: _ => some (String.mk ('@' :: (seg1 ++ '/' :: seg2)))
          | _ => none
      | _ => none
  | c :: rest =>
    match rest.findIdx? (fun ch => ch == '/') with
    | some k => some (String.mk (c :: rest.take k))
    | none => none

/-- The Node builtin-module names (`builtinModules` plus the additions the
utils module makes). -/
def builtins : List String :=
  ["assert", "async_hooks", "buffer", "child_process", "cluster", "console",
   "constants", "crypto", "dgram", "diagnostics_channel", "dns", "domain",
   "events", "fs", "http", "http2", "https", "inspector", "module", "net",
   "os", "path", "perf_hooks", "process", "punycode", "querystring",
   "readline", "repl", "stream", "string_decoder", "sys", "timers", "tls",
   "trace_events", "tty", "url", "util", "v8", "vm", "wasi", "worker_threads",
   "zlib", "assert/strict", "dns/promises", "fs/promises", "path/posix",
   "path/win32", "readline/promises", "stream/consumers", "stream/promises",
   "stream/web", "timers/promises", "util/types"]

/-- `isBuiltin`: strip a `node:` namespace and look the name up. -/
def isBuiltin (id : String) : Bool :=
  let moduleName := if strStartsWith id "node:" then id.drop 5 else id
  builtins.contains moduleName

/-- `isInNodeModules`. -/
def isInNodeModules (id : String) : Bool :=
  strContainsSub id "node_modules"

/-- `normalizePath` from utils (posix host: `isWindows` is false, so the
argument goes to `path.posix.normalize` unchanged). -/
def normalizePath (id : String) : String :=
  posixNormalize id

/-- `OPTIMIZABLE_ENTRY_REGEX.test(id)` for `/\.[cm]?[jt]s$/`. -/
def optimizableEntryTest (id : String) : Bool :=
  [".js", ".ts", ".cjs", ".cts", ".mjs", ".mts"].any (fun e => strEndsWith id e)

/-- `isOptimizable` (the optimizer's `extensions` option is the second
input). -/
def isOptimizable (id : String) (optExtensions : Option (List String)) : Bool :=
  optimizableEntryTest id ||
    ((optExtensions.map (fun exts => exts.any (fun e => strEndsWith id e))).getD false)

/-- Keywords of `SPECIAL_QUERY_REGEX = /[?&](?:worker|sharedworker|raw|url)\b/`. -/
def specialQueryKeywords : List String :=
  ["worker", "sharedworker", "raw", "url"]

/-- Word-boundary test after a matched keyword. -/
def specialQueryBoundaryOk (c : Option Char) : Bool :=
  match c with
  | none => true
  | some ch => !(isWordChar ch)

/-- Scanner for `SPECIAL_QUERY_REGEX.test`. -/
def specialQueryGo : List Char → Bool
  | [] => false
  | c :: rest =>
    ((c == '?' || c == '&') && specialQueryKeywords.any (fun kw =>
        kw.toList.isPrefixOf rest &&
        specialQueryBoundaryOk (rest.drop kw.length).head?))
    || specialQueryGo rest

/-- `SPECIAL_QUERY_REGEX.test(s)`. -/
def specialQueryTest (s : String) : Bool :=
  specialQueryGo s.toList

/-- `injectQuery` from utils: re-assemble `pathname?query&search#hash`.  The
WHATWG URL split (an external collaborator) is modelled directly: the search
is what stands between the first `?` and the following `#`, the hash is
everything from the first `#` (percent re-escaping is not re-applied). -/
def injectQuery (url queryToInject : String) : String :=
  let hIdx := strIndexOfChar url '#'
  let qIdx := strIndexOfChar url '?'
  let searchInner :=
    match qIdx, hIdx with
    | some q, some h =>
      if q < h then String.mk ((url.drop (q + 1)).toList.takeWhile (fun c => c != '#'))
      else ""
    | some q, none => url.drop (q + 1)
    | none, _ => ""
  let pathname := cleanUrl url
  let search := if searchInner != "" then "&" ++ searchInner else ""
  let hash := match hIdx with | some h => url.drop h | none => ""
  pathname ++ "?" ++ queryToInject ++ search ++ hash

/-- `path.basename` (posix). -/
def posixBasename (p : String) : String :=
  let rev := p.toList.reverse
  let afterTrail := rev.dropWhile (fun c => c == '/')
  String.mk ((afterTrail.takeWhile (fun c => c != '/')).reverse)

/-- `knownTsOutputRE.test` (`/\.(?:js|mjs|cjs|jsx)$/`). -/
def isPossibleTsOutput (url : String) : Bool :=
  [".js", ".mjs", ".cjs", ".jsx"].any (fun e => strEndsWith url e)

/-! ## plugins/resolve.ts: constants, options and the conditions set -/

/-- Special id for paths marked `browser: false`. -/
def browserExternalId : String := "__vite-browser-external"

/-- Special id for optional peer dependencies. -/
def optionalPeerDepId : String := "__vite-optional-peer-dep"

/-- `DEFAULT_MAIN_FIELDS` from constants. -/
def DEFAULT_MAIN_FIELDS : List String := ["module", "jsnext", "jsnext:main"]

/-- `DEFAULT_EXTENSIONS` from constants. -/
def DEFAULT_EXTENSIONS : List String :=
  [".mjs", ".js", ".mts", ".ts", ".jsx", ".tsx", ".json"]

/-- The `optimizeDeps` slice of the dynamically typed `ssrConfig`. -/
structure SsrConfig where
  optimizeDepsExclude : Option (List String)
  optimizeDepsInclude : Option (List String)

/-- The dependency optimizer as `tryNodeResolve` consumes it (dynamically
typed in the source): option lists, metadata, and the two id-producing
operations, as opaque functions. -/
structure DepsOptimizer where
  optExclude : Option (List String)
  optInclude : Option (List String)
  optExtensions : Option (List String)
  noDiscovery : Bool
  browserHash : Option String
  registerMissingImport : String → String → String
  getOptimizedDepId : String → String

/-- `InternalResolveOptionsWithOverrideConditions`.  The mutable
`packageCache` map travels as a separate explicit argument of the embedded
functions instead of a field; `tryPfx` is the source's `tryPrefix` option. -/
structure InternalResolveOptions where
  mainFields : List String
  browserField : Bool
  conditions : List String
  extensions : List String
  dedupe : List String
  preserveSymlinks : Bool
  root : String
  isBuild : Bool
  isProduction : Bool
  tryEsmOnly : Bool
  isRequire : Bool
  idOnly : Bool
  scan : Bool
  ssrOptimizeCheck : Bool
  isFromTsImporter : Bool
  tryPfx : Option String
  overrideConditions : Option (List String)
  ssrConfig : Option SsrConfig

/-- The option object handed to the resolve.exports library functions. -/
structure ExportsCallArgs where
  browser : Bool
  requireCond : Bool
  conditions : List String
deriving DecidableEq, Repr

/-- Which of the two library entry points `resolveExportsOrImports` picks. -/
inductive ImportsOrExports where
  | importsKind
  | exportsKind
deriving DecidableEq, Repr

/-- The resolve.exports library (an external collaborator): `exports` and
`imports` each map a manifest, a subpath key and the condition options to a
list of resolution candidates, `none` for an undefined subpath, or a thrown
error. -/
structure ExportsLib where
  exportsFn : JValue → String → ExportsCallArgs → Except String (Option (List String))
  importsFn : JValue → String → ExportsCallArgs → Except String (Option (List String))

/-- The `additionalConditions` set of `resolveExportsOrImports`:
`overrideConditions` when given, else `production`, `development`, `module`
and the caller-supplied conditions, deduplicated in order. -/
def exportsAdditionalConditions (options : InternalResolveOptions) : List String :=
  jsSetDedup (match options.overrideConditions with
    | some o => o
    | none => ["production", "development", "module"] ++ options.conditions)

/-- The filtered `conditions` array of `resolveExportsOrImports`:
`production` is kept iff the production flag is set, `development` iff it is
not, everything else always. -/
def exportsFilteredConditions (options : InternalResolveOptions) : List String :=
  (exportsAdditionalConditions options).filter (fun condition =>
    if condition == "production" then options.isProduction
    else if condition == "development" then !options.isProduction
    else true)

/-- The full option object `resolveExportsOrImports` passes to the library:
`browser` unless `node` was supplied, `require` unless `import` was
supplied. -/
def exportsCallArgs (options : InternalResolveOptions) (targetWeb : Bool) :
    ExportsCallArgs :=
  let additionalConditions := exportsAdditionalConditions options
  { browser := targetWeb && !(additionalConditions.contains "node")
    requireCond := options.isRequire && !(additionalConditions.contains "import")
    conditions := exportsFilteredConditions options }

/-- `resolveExportsOrImports` from plugins/resolve.ts: build the condition
set, call the library, and return `result[0]` (an empty candidate array
yields `undefined`). -/
def resolveExportsOrImports (lib : ExportsLib) (pkg : JValue) (key : String)
    (options : InternalResolveOptions) (targetWeb : Bool)
    (kind : ImportsOrExports) : Except String (Option String) :=
  let args := exportsCallArgs options targetWeb
  let fn := match kind with
    | .importsKind => lib.importsFn
    | .exportsKind => lib.exportsFn
  match fn pkg key args with
  | .error e => .error e
  | .ok result =>
    .ok (match result with
      | some (x :: _) => some x
      | some [] => none
      | none => none)

/-- `equalWithoutSuffix` from plugins/resolve.ts. -/
def equalWithoutSuffix (p key suffix : String) : Bool :=
  strEndsWith key suffix && (key.dropRight suffix.length) == p

/-- The `for (const key in map)` loop of `mapWithBrowserField`, in property
order. -/
def mapWithBrowserFieldGo (normalizedPath : String) :
    List (String × JValue) → Option JValue
  | [] => none
  | (key, v) :: rest =>
    let normalizedKey := posixNormalize key
    if normalizedPath == normalizedKey
        || equalWithoutSuffix normalizedPath normalizedKey ".js"
        || equalWithoutSuffix normalizedPath normalizedKey "/index.js" then
      some v
    else mapWithBrowserFieldGo normalizedPath rest

/-- `mapWithBrowserField`: `none` is no mapping, `some (.bool false)` an
explicit browser exclusion, a string value the remap target. -/
def mapWithBrowserField (relativePathInPkgDir : String)
    (map : List (String × JValue)) : Option JValue :=
  mapWithBrowserFieldGo (posixNormalize relativePathInPkgDir) map

/-! ## plugins/resolve.ts: filesystem probing and package entry resolution -/

/-- `getRealPath`. -/
def getRealPath (env : Env) (resolved : String) (preserveSymlinks : Bool) : String :=
  normalizePath
    (if !preserveSymlinks && browserExternalId != resolved then env.realpath resolved
     else resolved)

/-- `tryResolveRealFile`. -/
def tryResolveRealFile (env : Env) (file : String) (preserveSymlinks : Bool) :
    Option String :=
  if env.stat file == some FileKind.file then
    some (getRealPath env file preserveSymlinks)
  else none

/-- `tryResolveRealFileWithExtensions` (first extension that resolves). -/
def tryResolveRealFileWithExtensions (env : Env) (filePath : String) :
    List String → Bool → Option String
  | [], _ => none
  | ext :: rest, preserveSymlinks =>
    match tryResolveRealFile env (filePath ++ ext) preserveSymlinks with
    | some res => some res
    | none => tryResolveRealFileWithExtensions env filePath rest preserveSymlinks

/-- The message `packageEntryFailure` throws. -/
def packageEntryFailureMsg (id : String) (details : Option String) : String :=
  "Failed to resolve entry for package \"" ++ id ++ "\". " ++
    "The package may have incorrect main/module/exports specified in its package.json" ++
    (match details with
     | some d => ": " ++ d
     | none => ".")

/-- The error `resolveDeepImport` throws for a subpath an exports map does
not define (`relativeId` is `undefined` at the throw site, so the template
renders `undefined`). -/
def deepImportNotDefinedMsg (relativeId : Option String) (directory : String) :
    String :=
  "Package subpath '" ++ (match relativeId with | some s => s | none => "undefined") ++
    "' is not defined by \"exports\" in " ++ joinPath directory "package.json" ++ "."

/-- The model of the `RangeError` an unbounded JavaScript recursion ends in;
the embedded functions raise it when their call-stack fuel runs out. -/
def stackOverflowMsg : String :=
  "RangeError: Maximum call stack size exceeded"

/-- `entryPoint.endsWith('.mjs')` on the possibly-undefined dynamic entry
point (only a string entry can end in `.mjs`). -/
def entryPointEndsMjs (e : Option JValue) : Bool :=
  match e with
  | some (.str s) => strEndsWith s ".mjs"
  | _ => false

/-- The `for (const field of options.mainFields)` fallback of
`resolvePackageEntry`: the first main field (other than `browser`) whose
manifest value is a string. -/
def mainFieldsLookup (pj : JValue) : List String → Option JValue
  | [] => none
  | field :: rest =>
    if field == "browser" then mainFieldsLookup pj rest
    else
      match pj.get field with
      | some (.str s) => some (.str s)
      | _ => mainFieldsLookup pj rest

mutual

/-- `tryFsResolve`: handle `#` inside node_modules paths, split off the
query/hash postfix, and delegate to `tryCleanFsResolve`.  The fuel models
the JavaScript call stack of the mutual recursion through
`resolvePackageEntry` (nested directory manifests), which is unbounded in
the source. -/
def tryFsResolve (env : Env) (lib : ExportsLib) (options : InternalResolveOptions) :
    Nat → String → Bool → Bool → Bool → Except String (Option String)
  | 0, _, _, _, _ => .error stackOverflowMsg
  | fuel + 1, fsPath, tryIndex, targetWeb, skipPackageJson => do
    match strIndexOfChar fsPath '#' with
    | some hashIndex =>
      if isInNodeModules fsPath then
        let queryIndexOpt := strIndexOfChar fsPath '?'
        let proceed :=
          match queryIndexOpt with
          | none => true
          | some queryIndex => queryIndex > hashIndex
        if proceed then
          let file :=
            match queryIndexOpt with
            | some queryIndex =>
              if queryIndex > hashIndex then String.mk (fsPath.toList.take queryIndex)
              else fsPath
            | none => fsPath
          let res ← tryCleanFsResolve env lib options fuel file tryIndex targetWeb
            skipPackageJson
          match res with
          | some r => if r != "" then return some (r ++ fsPath.drop file.length)
          | none => pure ()
    | none => pure ()
    let fp := splitFileAndPostfix fsPath
    let res ← tryCleanFsResolve env lib options fuel fp.1 tryIndex targetWeb
      skipPackageJson
    match res with
    | some r => if r != "" then return some (r ++ fp.2) else return none
    | none => return none

/-- `tryCleanFsResolve`: direct file match, TS-source fallback for compiled
extensions, extension probing, prefix probing, then (when `tryIndex`) nested
manifest resolution and index probing of a directory.  A caught error is
re-thrown unless it is ENOENT-class, as in the source. -/
def tryCleanFsResolve (env : Env) (lib : ExportsLib) (options : InternalResolveOptions) :
    Nat → String → Bool → Bool → Bool → Except String (Option String)
  | 0, _, _, _, _ => .error stackOverflowMsg
  | fuel + 1, file, tryIndex, targetWeb, skipPackageJson => do
    let fileStat := env.stat file
    if fileStat == some FileKind.file then
      return some (getRealPath env file options.preserveSymlinks)
    let possibleJsToTs := options.isFromTsImporter && isPossibleTsOutput file
    if possibleJsToTs || options.extensions.length != 0 || optStrTruthy options.tryPfx then
      let dirPath := posixDirname file
      if env.stat dirPath == some FileKind.dir then
        if possibleJsToTs then
          let fileExt := posixExtname file
          let fileName := String.mk (file.toList.take (file.length - fileExt.length))
          match tryResolveRealFile env (fileName ++ strReplaceFirst fileExt "js" "ts")
              options.preserveSymlinks with
          | some res => return some res
          | none => pure ()
          if fileExt == ".js" then
            match tryResolveRealFile env (fileName ++ ".tsx") options.preserveSymlinks with
            | some res => return some res
            | none => pure ()
        match tryResolveRealFileWithExtensions env file options.extensions
            options.preserveSymlinks with
        | some res => return some res
        | none => pure ()
        if optStrTruthy options.tryPfx then
          let prefixed := dirPath ++ "/" ++ options.tryPfx.getD "" ++ posixBasename file
          match tryResolveRealFile env prefixed options.preserveSymlinks with
          | some res => return some res
          | none => pure ()
          match tryResolveRealFileWithExtensions env prefixed options.extensions
              options.preserveSymlinks with
          | some res => return some res
          | none => pure ()
    if tryIndex && fileStat.isSome then
      let dirPath := file
      if !skipPackageJson then
        let pkgPath := dirPath ++ "/package.json"
        let attempt : Except String (Option String) :=
          if env.fsExists pkgPath then
            match loadPackageData env
                (if options.preserveSymlinks then pkgPath else env.realpath pkgPath) with
            | .error e => .error e
            | .ok pkg =>
              match resolvePackageEntry env lib options fuel dirPath pkg targetWeb with
              | .error e => .error e
              | .ok entry => .ok (some entry.1)
          else .ok none
        match attempt with
        | .ok (some entry) => return some entry
        | .ok none => pure ()
        | .error e => if strStartsWith e "ENOENT" then pure () else throw e
      match tryResolveRealFileWithExtensions env (dirPath ++ "/index")
          options.extensions options.preserveSymlinks with
      | some res => return some res
      | none => pure ()
      if optStrTruthy options.tryPfx then
        match tryResolveRealFileWithExtensions env
            (dirPath ++ "/" ++ options.tryPfx.getD "" ++ "index")
            options.extensions options.preserveSymlinks with
        | some res => return some res
        | none => pure ()
    return none

/-- The `try` body of `resolvePackageEntry` (everything between the cache
check and the catch): `.ok none` models falling out of the entry-point loop
without a hit. -/
def tryResolvePackageEntryInner (env : Env) (lib : ExportsLib)
    (options : InternalResolveOptions) :
    Nat → String → PackageData → Bool → Except String (Option (String × PackageData))
  | 0, _, _, _ => .error stackOverflowMsg
  | fuel + 1, _id, pd, targetWeb => do
    let mut entryPoint : Option JValue := none
    if optTruthy (pd.packageJson.get "exports") then
      let e ← resolveExportsOrImports lib pd.packageJson "." options targetWeb
        .exportsKind
      entryPoint := e.map JValue.str
    let resolvedFromExports := optTruthy entryPoint
    if targetWeb && options.browserField
        && (!optTruthy entryPoint || entryPointEndsMjs entryPoint) then
      let browserEntry : Option JValue :=
        match pd.packageJson.get "browser" with
        | some (.str s) => some (.str s)
        | some v => if v.isObj then v.get "." else some (.bool false)
        | none => some (.bool false)
      if optTruthy browserEntry then
        let moduleNeqBrowser :=
          match pd.packageJson.get "module", browserEntry with
          | some (.str m), some (.str b) => m != b
          | _, _ => true
        let moduleIsString :=
          match pd.packageJson.get "module" with
          | some (.str _) => true
          | _ => false
        if !options.isRequire && options.mainFields.contains "module"
            && moduleIsString && moduleNeqBrowser then
          let resolvedBrowserEntry ← tryFsResolve env lib options fuel
            (joinPath pd.directory (jsShow browserEntry)) true true false
          match resolvedBrowserEntry with
          | some resolvedPath =>
            if resolvedPath != "" then
              match env.readFile resolvedPath with
              | none =>
                throw ("ENOENT: no such file or directory, open " ++ resolvedPath)
              | some content =>
                if env.hasESMSyntax content then
                  entryPoint := browserEntry
                else
                  entryPoint := pd.packageJson.get "module"
          | none => pure ()
        else
          entryPoint := browserEntry
    if !resolvedFromExports && (!optTruthy entryPoint || entryPointEndsMjs entryPoint) then
      match mainFieldsLookup pd.packageJson options.mainFields with
      | some v => entryPoint := some v
      | none => pure ()
    if !optTruthy entryPoint then
      entryPoint := pd.packageJson.get "main"
    let entryPoints : List JValue :=
      match entryPoint with
      | some ep => if ep.truthy then [ep] else [.str "index.js", .str "index.json", .str "index.node"]
      | none => [.str "index.js", .str "index.json", .str "index.node"]
    resolvePackageEntryLoop env lib options fuel pd targetWeb entryPoints

/-- The `for (let entry of entryPoints)` loop of `resolvePackageEntry`.  The
fuel also ticks once per entry (the source list is at most a singleton or
the three default index names, so the callers' fuel never runs out here). -/
def resolvePackageEntryLoop (env : Env) (lib : ExportsLib)
    (options : InternalResolveOptions) :
    Nat → PackageData → Bool → List JValue →
    Except String (Option (String × PackageData))
  | 0, _, _, _ => .error stackOverflowMsg
  | _fuel + 1, _, _, [] => .ok none
  | fuel + 1, pd, targetWeb, entry0 :: rest => do
    let entryAndSkip : String × Bool :=
      if options.mainFields.head? == some "sass"
          && !(options.extensions.contains (posixExtname entry0.coerceString)) then
        ("", true)
      else
        let entry := entry0.coerceString
        match pd.packageJson.get "browser" with
        | some (.obj bfields) =>
          if targetWeb && options.browserField then
            let mapped := mapWithBrowserField entry bfields
            (if optTruthy mapped then jsShow mapped else entry, false)
          else (entry, false)
        | _ => (entry, false)
    let entryPointPath := joinPath pd.directory entryAndSkip.1
    let resolvedEntryPoint ← tryFsResolve env lib options fuel entryPointPath
      true true entryAndSkip.2
    match resolvedEntryPoint with
    | some r =>
      if r != "" then
        return some (r, pd.setResolvedCache "." r targetWeb)
      else
        resolvePackageEntryLoop env lib options fuel pd targetWeb rest
    | none => resolvePackageEntryLoop env lib options fuel pd targetWeb rest

/-- `resolvePackageEntry`: serve the `'.'` cache when truthy, otherwise run
the try body; a fall-through or a caught error both end in
`packageEntryFailure`, so failure is always a throw naming the package. -/
def resolvePackageEntry (env : Env) (lib : ExportsLib)
    (options : InternalResolveOptions) :
    Nat → String → PackageData → Bool → Except String (String × PackageData)
  | 0, _, _, _ => .error stackOverflowMsg
  | fuel + 1, id, pd, targetWeb =>
    match pd.getResolvedCache "." targetWeb with
    | some cached =>
      if cached != "" then .ok (cached, pd)
      else
        match tryResolvePackageEntryInner env lib options fuel id pd targetWeb with
        | .ok (some r) => .ok r
        | .ok none => .error (packageEntryFailureMsg id none)
        | .error e => .error (packageEntryFailureMsg id (some e))
    | none =>
      match tryResolvePackageEntryInner env lib options fuel id pd targetWeb with
      | .ok (some r) => .ok r
      | .ok none => .error (packageEntryFailureMsg id none)
      | .error e => .error (packageEntryFailureMsg id (some e))

end

/-! ## plugins/resolve.ts: resolveDeepImport -/

/-- The filesystem half of `resolveDeepImport` (source lines from the
`if (relativeId)` guard on): probe `directory/relativeId`, with index
resolution only when the manifest has no exports field, and memoize a truthy
result. -/
def resolveDeepImportFsPart (env : Env) (lib : ExportsLib)
    (options : InternalResolveOptions) (fuel : Nat) (pd : PackageData)
    (targetWeb : Bool) (exportsTruthy : Bool) (id : String)
    (relativeId : Option String) : Except String (Option String × PackageData) :=
  match relativeId with
  | some rid =>
    if rid != "" then
      match tryFsResolve env lib options fuel (joinPath pd.directory rid)
          (!exportsTruthy) targetWeb false with
      | .error e => .error e
      | .ok (some resolved) =>
        if resolved != "" then
          .ok (some resolved, pd.setResolvedCache id resolved targetWeb)
        else .ok (none, pd)
      | .ok none => .ok (none, pd)
    else .ok (none, pd)
  | none => .ok (none, pd)

/-- The uncached body of `resolveDeepImport`: map the subpath through the
exports map (throwing when the map does not define it) or through the
browser field, then probe the filesystem. -/
def resolveDeepImportUncached (env : Env) (lib : ExportsLib)
    (options : InternalResolveOptions) (fuel : Nat) (id : String)
    (pd : PackageData) (targetWeb : Bool) :
    Except String (Option String × PackageData) :=
  if optTruthy (pd.packageJson.get "exports") then
    if ((pd.packageJson.get "exports").map JValue.isObj).getD false then
      match resolveExportsOrImports lib pd.packageJson (splitFileAndPostfix id).1
          options targetWeb .exportsKind with
      | .error e => .error e
      | .ok (some eid) =>
        if eid ++ (splitFileAndPostfix id).2 == "" then
          .error (deepImportNotDefinedMsg (some (eid ++ (splitFileAndPostfix id).2))
            pd.directory)
        else
          resolveDeepImportFsPart env lib options fuel pd targetWeb true id
            (some (eid ++ (splitFileAndPostfix id).2))
      | .ok none => .error (deepImportNotDefinedMsg none pd.directory)
    else .error (deepImportNotDefinedMsg none pd.directory)
  else
    match pd.packageJson.get "browser" with
    | some bf =>
      if targetWeb && options.browserField && bf.isObj then
        match bf with
        | .obj bfields =>
          match mapWithBrowserField (splitFileAndPostfix id).1 bfields with
          | some v =>
            if v.truthy then
              resolveDeepImportFsPart env lib options fuel pd targetWeb false id
                (some (v.coerceString ++ (splitFileAndPostfix id).2))
            else
              match v with
              | .bool false =>
                .ok (some browserExternalId,
                  { pd with
                    webResolvedImports :=
                      objSet pd.webResolvedImports id browserExternalId })
              | _ =>
                resolveDeepImportFsPart env lib options fuel pd targetWeb false id
                  (some id)
          | none =>
            resolveDeepImportFsPart env lib options fuel pd targetWeb false id
              (some id)
        | _ =>
          resolveDeepImportFsPart env lib options fuel pd targetWeb false id (some id)
      else
        resolveDeepImportFsPart env lib options fuel pd targetWeb false id (some id)
    | none =>
      resolveDeepImportFsPart env lib options fuel pd targetWeb false id (some id)

/-- `resolveDeepImport`: serve the per-manifest cache when it holds a truthy
entry for `(id, targetWeb)`, else run the uncached body. -/
def resolveDeepImport (env : Env) (lib : ExportsLib)
    (options : InternalResolveOptions) (fuel : Nat) (id : String)
    (pd : PackageData) (targetWeb : Bool) :
    Except String (Option String × PackageData) :=
  match pd.getResolvedCache id targetWeb with
  | some cache =>
    if cache != "" then .ok (some cache, pd)
    else resolveDeepImportUncached env lib options fuel id pd targetWeb
  | none => resolveDeepImportUncached env lib options fuel id pd targetWeb

/-! ## plugins/resolve.ts: tryNodeResolve -/

/-- Rollup's `PartialResolvedId` as `tryNodeResolve` produces it. -/
structure ResolvedId where
  id : String
  isExternal : Option Bool := none
  moduleSideEffects : Option Bool := none

/-- The `processResult` closure of `tryNodeResolve`: mark an externalized
result, undoing the deep-import expansion for packages without an exports
field. -/
def tnrProcessResult (id : String) (deepMatch pkgExports : Bool)
    (externalize : Option Bool) (allowLinkedExternal : Bool)
    (resolved : ResolvedId) : ResolvedId :=
  if !(externalize.getD false) then resolved
  else if !allowLinkedExternal && !isInNodeModules resolved.id then resolved
  else
    let resolvedExt := posixExtname resolved.id
    if resolvedExt != "" && resolvedExt != ".js" && resolvedExt != ".mjs"
        && resolvedExt != ".cjs" then
      resolved
    else
      let resolvedId :=
        if deepMatch && !pkgExports && posixExtname id != resolvedExt then
          match strIndexOfSub resolved.id id with
          | some index => resolved.id.drop index
          | none => id
        else id
      { resolved with id := resolvedId, isExternal := some true }

/-- Lines 249 onward of `tryNodeResolve` (after a truthy `resolved` was
obtained): side-effects annotation for builds, the optimizer dance, and the
final result shapes.  The manifest lookup inside the last
`skipOptimization` clause is evaluated whenever `ssr` is set and the
extension is `.js`; in the source an earlier true clause short-circuits it —
the difference can only affect the back-filled cache state, never the
result. -/
def tryNodeResolveTail (env : Env) (id : String) (importer : Option String)
    (options : InternalResolveOptions) (depsOptimizer : Option DepsOptimizer)
    (ssr : Bool) (externalize : Option Bool) (allowLinkedExternal : Bool)
    (deepMatch : Option String) (pkgId : String) (pkg : PackageData)
    (resolved0 : String) (cache : Option PackageCache) :
    Except String (Option ResolvedId × Option PackageCache) :=
  let pkgExports := optTruthy (pkg.packageJson.get "exports")
  if !options.idOnly
      && ((!options.scan && options.isBuild && depsOptimizer.isNone)
          || externalize.getD false) then
    .ok (some (tnrProcessResult id deepMatch.isSome pkgExports externalize
        allowLinkedExternal
        { id := resolved0
          moduleSideEffects := some (pkg.hasSideEffectsOn env resolved0) }),
      cache)
  else
    let ext := posixExtname resolved0
    if !options.ssrOptimizeCheck
        && (!isInNodeModules resolved0 || depsOptimizer.isNone || options.scan) then
      .ok (some { id := resolved0 }, cache)
    else
      let isJsType :=
        match depsOptimizer with
        | some d => isOptimizable resolved0 d.optExtensions
        | none => optimizableEntryTest resolved0
      let exclude :=
        if options.ssrOptimizeCheck then options.ssrConfig.bind SsrConfig.optimizeDepsExclude
        else depsOptimizer.bind DepsOptimizer.optExclude
      let inc :=
        if options.ssrOptimizeCheck then options.ssrConfig.bind SsrConfig.optimizeDepsInclude
        else depsOptimizer.bind DepsOptimizer.optInclude
      let ssrPkgClause : Bool × Option PackageCache :=
        if ssr then
          if ext == ".cjs" then (true, cache)
          else if ext == ".js" then
            let r := findNearestPackageData env (posixDirname resolved0) cache
            ((match r.1 with
              | some pd2 =>
                (match pd2.packageJson.get "type" with
                 | some (.str t) => t != "module"
                 | _ => true)
              | none => true), r.2)
          else (false, cache)
        else (false, cache)
      let cache2 := ssrPkgClause.2
      let skipOptimization :=
        ((depsOptimizer.map DepsOptimizer.noDiscovery).getD false)
        || !isJsType
        || (match importer with
            | some imp => imp != "" && isInNodeModules imp
            | none => false)
        || ((exclude.map (fun l => l.contains pkgId)).getD false)
        || ((exclude.map (fun l => l.contains id)).getD false)
        || specialQueryTest resolved0
        || (!options.ssrOptimizeCheck && !options.isBuild && ssr)
        || (ssr && !ssrPkgClause.1
            && !(((inc.map (fun l => l.contains pkgId)).getD false)
                 || ((inc.map (fun l => l.contains id)).getD false)))
      if options.ssrOptimizeCheck then
        .ok (some { id :=
          if skipOptimization then injectQuery resolved0 "__vite_skip_optimization"
          else resolved0 }, cache2)
      else
        match (if skipOptimization then
                 (if !options.isBuild then
                   match depsOptimizer with
                   | none =>
                     .error "TypeError: Cannot read properties of undefined (reading metadata)"
                   | some d =>
                     match d.browserHash with
                     | some versionHash =>
                       if versionHash != "" && isJsType then
                         .ok (injectQuery resolved0 ("v=" ++ versionHash))
                       else .ok resolved0
                     | none => .ok resolved0
                 else .ok resolved0 : Except String String)
               else
                 match depsOptimizer with
                 | none =>
                   .error "TypeError: Cannot read properties of undefined (reading registerMissingImport)"
                 | some d =>
                   .ok (d.getOptimizedDepId (d.registerMissingImport id resolved0))) with
        | .error e => .error e
        | .ok resolvedFinal =>
          if !options.idOnly && !options.scan && options.isBuild then
            .ok (some { id := resolvedFinal
                        moduleSideEffects :=
                          some (pkg.hasSideEffectsOn env resolvedFinal) }, cache2)
          else .ok (some { id := resolvedFinal }, cache2)

/-- `const pkgId = deepMatch ? deepMatch[1] ?? deepMatch[2] ?? '' : id`. -/
def tnrPkgId (id : String) : String :=
  (deepImportMatch id).getD id

/-- The `basedir` computation of `tryNodeResolve`: the root for deduped
packages or an importer that is not an absolute existing path, else the
importer's directory. -/
def tnrBasedir (env : Env) (pkgId : String) (importer : Option String)
    (options : InternalResolveOptions) : String :=
  if options.dedupe.contains pkgId then options.root
  else
    match importer with
    | some imp =>
      if imp != "" && posixIsAbsolute imp
          && (strEndsWith imp "*" || env.fsExists (cleanUrl imp)) then
        posixDirname imp
      else options.root
    | none => options.root

/-- `tryNodeResolve` from plugins/resolve.ts.  The `packageCache` travels as
the last argument (the source reads it off `options`); the updated cache is
returned beside the result.  Source defaults: `ssr = false`,
`allowLinkedExternal = true`, `depsOptimizer`/`externalize` undefined. -/
def tryNodeResolve (env : Env) (lib : ExportsLib) (fuel : Nat) (id : String)
    (importer : Option String) (options : InternalResolveOptions)
    (targetWeb : Bool) (depsOptimizer : Option DepsOptimizer) (ssr : Bool)
    (externalize : Option Bool) (allowLinkedExternal : Bool)
    (packageCache : Option PackageCache) :
    Except String (Option ResolvedId × Option PackageCache) :=
  let deepMatch := deepImportMatch id
  let pkgId := tnrPkgId id
  let basedir := tnrBasedir env pkgId importer options
  match resolvePackageData env pkgId basedir options.preserveSymlinks packageCache with
  | (none, cache1) =>
    if basedir != options.root && !isBuiltin id && !(strContainsSub id "\x00")
        && bareImportTest id then
      match findNearestMainPackageData env basedir cache1 with
      | .error e => .error e
      | .ok (some mainPd, cache2) =>
        let mainPkg := mainPd.packageJson
        if optTruthy ((mainPkg.get "peerDependencies").bind (fun o => o.get id))
            && optTruthy (((mainPkg.get "peerDependenciesMeta").bind
                (fun o => o.get id)).bind (fun o => o.get "optional")) then
          .ok (some { id := optionalPeerDepId ++ ":" ++ id ++ ":"
                        ++ jsShow (mainPkg.get "name") }, cache2)
        else .ok (none, cache2)
      | .ok (none, cache2) => .ok (none, cache2)
    else .ok (none, cache1)
  | (some pkg, cache1) =>
    let unresolvedId := if deepMatch.isSome then "." ++ id.drop pkgId.length else pkgId
    let firstTry : Except String (Option String × PackageData) :=
      if deepMatch.isSome then
        resolveDeepImport env lib options fuel unresolvedId pkg targetWeb
      else
        match resolvePackageEntry env lib options fuel unresolvedId pkg targetWeb with
        | .ok r => .ok (some r.1, r.2)
        | .error e => .error e
    match (match firstTry with
           | .error e => if options.tryEsmOnly then .ok (none, pkg) else .error e
           | .ok x => .ok x : Except String (Option String × PackageData)) with
    | .error e => .error e
    | .ok (resolvedOpt, pkgA) =>
      let retried : Except String (Option String × PackageData) :=
        if !(optStrTruthy resolvedOpt) && options.tryEsmOnly then
          let options2 := { options with
            isRequire := false
            mainFields := DEFAULT_MAIN_FIELDS
            extensions := DEFAULT_EXTENSIONS }
          if deepMatch.isSome then
            resolveDeepImport env lib options2 fuel unresolvedId pkgA targetWeb
          else
            match resolvePackageEntry env lib options2 fuel unresolvedId pkgA targetWeb with
            | .ok r => .ok (some r.1, r.2)
            | .error e => .error e
        else .ok (resolvedOpt, pkgA)
      match retried with
      | .error e => .error e
      | .ok (resolvedOpt2, pkgB) =>
        if !(optStrTruthy resolvedOpt2) then .ok (none, cache1)
        else
          tryNodeResolveTail env id importer options depsOptimizer ssr externalize
            allowLinkedExternal deepMatch pkgId pkgB (resolvedOpt2.getD "") cache1

/-! ## plugins/resolve.ts: the resolve plugin's load hook -/

/-- The dev-mode module text returned for a `browserExternalId` id (the
source template's `\` after the opening backtick swallows the first
newline). -/
def browserExternalDevCode (id : String) : String :=
  "export default new Proxy(\x7b\x7d, \x7b\n  get(_, key) \x7b\n    throw new Error(`Module \""
    ++ id ++ "\" has been externalized for browser compatibility. Cannot access \""
    ++ id ++ ".$\x7bkey\x7d\" in client code.  See http://vitejs.dev/guide/troubleshooting.html#module-externalized-for-browser-compatibility for more details.`)\n  \x7d\n\x7d)"

/-- A destructured element of `id.split(':')`, rendered as a template
literal renders it (`undefined` when missing). -/
def splitPart (xs : List String) (i : Nat) : String :=
  (xs.get? i).getD "undefined"

/-- The dev-mode module text returned for an `optionalPeerDepId` id. -/
def optionalPeerDepDevCode (peerDep parentDep : String) : String :=
  "throw new Error(`Could not resolve \"" ++ peerDep ++ "\" imported by \""
    ++ parentDep ++ "\". Is it installed?`)"

/-- The `load` hook of `resolvePlugin`: module text for the two sentinel id
families, `none` (no load result) for everything else. -/
def resolvePluginLoad (isProduction : Bool) (id : String) : Option String :=
  if strStartsWith id browserExternalId then
    if isProduction then some "export default \x7b\x7d"
    else some (browserExternalDevCode (id.drop (browserExternalId.length + 1)))
  else if strStartsWith id optionalPeerDepId then
    if isProduction then some "export default \x7b\x7d"
    else
      let parts := strSplitOnChar ':' id
      some (optionalPeerDepDevCode (splitPart parts 1) (splitPart parts 2))
  else none

/-! ## Concrete fixtures used by the claim theorems and witnesses -/

/-- A filesystem with nothing in it. -/
def emptyFsEnv : Env :=
  { stat := fun _ => none
    fsExists := fun _ => false
    realpath := fun p => p
    readFile := fun _ => none
    jsonParse := fun _ => none
    hasESMSyntax := fun _ => false
    createFilter := fun _ _ _ => true }

/-- A resolve.exports model in which no subpath is defined (every lookup
reports `undefined`). -/
def emptyExportsLib : ExportsLib :=
  { exportsFn := fun _ _ _ => .ok none
    importsFn := fun _ _ _ => .ok none }

/-- A plain dev-serve option set (the shape `resolvePlugin` builds during
dev: default main fields and extensions, browser field honoured, nothing
special switched on). -/
def devOptions : InternalResolveOptions :=
  { mainFields := DEFAULT_MAIN_FIELDS
    browserField := true
    conditions := []
    extensions := DEFAULT_EXTENSIONS
    dedupe := []
    preserveSymlinks := false
    root := "/root"
    isBuild := false
    isProduction := false
    tryEsmOnly := false
    isRequire := false
    idOnly := false
    scan := false
    ssrOptimizeCheck := false
    isFromTsImporter := false
    tryPfx := none
    overrideConditions := none
    ssrConfig := none }

/-- A filesystem with a single readable manifest at `/a/package.json`
(named `a`) and nothing anywhere below. -/
def claim1Env : Env :=
  { emptyFsEnv with
    stat := fun p => if p == "/a/package.json" then some FileKind.file else none
    fsExists := fun p => p == "/a/package.json"
    readFile := fun p => if p == "/a/package.json" then some "claim1-manifest" else none
    jsonParse := fun s =>
      if s == "claim1-manifest" then some (.obj [("name", .str "a")]) else none }

/-- A filesystem whose only manifest, at `/m/package.json`, holds malformed
JSON. -/
def claim6Env : Env :=
  { emptyFsEnv with
    stat := fun p => if p == "/m/package.json" then some FileKind.file else none
    fsExists := fun p => p == "/m/package.json"
    readFile := fun p => if p == "/m/package.json" then some "not json" else none
    jsonParse := fun _ => none }

/-- Plugin with a `resolveId` object hook ordered `pre`. -/
def pluginA : Plugin :=
  { name := "A", hooks := [("resolveId", .objHandler (some .pre) "hA")] }

/-- Plugin with a bare `resolveId` handler. -/
def pluginB : Plugin :=
  { name := "B", hooks := [("resolveId", .fnHandler "hB")] }

/-- Plugin with a `resolveId` object hook ordered `post`. -/
def pluginC : Plugin :=
  { name := "C", hooks := [("resolveId", .objHandler (some .post) "hC")] }

/-- Plugin with a bare `resolveId` handler. -/
def pluginD : Plugin :=
  { name := "D", hooks := [("resolveId", .fnHandler "hD")] }

/-- Plugin whose `resolveId` hook is an object entry with no declared
order. -/
def pluginBobj : Plugin :=
  { name := "B", hooks := [("resolveId", .objHandler none "hB")] }

/-- The options the config bundler passes: `overrideConditions: ['node']`
with the production flag set. -/
def claim7OverrideOptions : InternalResolveOptions :=
  { devOptions with overrideConditions := some ["node"], isProduction := true }

/-- A package whose manifest has an object-form exports map listing only the
root entry. -/
def claim2Pd : PackageData :=
  { directory := "/root/node_modules/mylib"
    packageJson := .obj [("exports", .obj [(".", .str "./index.js")])]
    webResolvedImports := []
    nodeResolvedImports := [] }

/-- A package without an exports map. -/
def claim4Pd : PackageData :=
  { directory := "/root/node_modules/mylib"
    packageJson := .obj [("name", .str "mylib")]
    webResolvedImports := []
    nodeResolvedImports := [] }

/-- The same package after its web cache memoized `./bar`. -/
def claim4CachedPd : PackageData :=
  { directory := "/root/node_modules/mylib"
    packageJson := .obj [("name", .str "mylib")]
    webResolvedImports := [("./bar", "/root/node_modules/mylib/bar.js")]
    nodeResolvedImports := [] }

/-- A filesystem holding exactly `mylib`'s directory and its `bar.js`. -/
def claim4Env : Env :=
  { emptyFsEnv with
    stat := fun p =>
      if p == "/root/node_modules/mylib/bar.js" then some FileKind.file
      else if p == "/root/node_modules/mylib" then some FileKind.dir
      else none }

/-- A filesystem with the importer `/root/src/a.ts` and an installed
`mylib` whose manifest has no exports field and no entry files at all. -/
def claim3Env : Env :=
  { emptyFsEnv with
    stat := fun p =>
      if p == "/root/node_modules/mylib/package.json" then some FileKind.file
      else none
    fsExists := fun p =>
      p == "/root/node_modules/mylib/package.json" || p == "/root/src/a.ts"
    readFile := fun p =>
      if p == "/root/node_modules/mylib/package.json" then some "mylib-manifest"
      else none
    jsonParse := fun s =>
      if s == "mylib-manifest" then some (.obj [("name", .str "mylib")]) else none }

/-- The manifest of the package that declares `foo` as an optional peer
dependency. -/
def claim8Manifest : JValue :=
  .obj [("name", .str "pkg"),
        ("peerDependencies", .obj [("foo", .str "^1.0.0")]),
        ("peerDependenciesMeta", .obj [("foo", .obj [("optional", .bool true)])])]

/-- A filesystem where `/app/pkg` holds that manifest and the importer
`/app/pkg/main.ts`, and `foo` is installed nowhere. -/
def claim8Env : Env :=
  { emptyFsEnv with
    stat := fun p => if p == "/app/pkg/package.json" then some FileKind.file else none
    fsExists := fun p => p == "/app/pkg/main.ts" || p == "/app/pkg/package.json"
    readFile := fun p => if p == "/app/pkg/package.json" then some "pkg-manifest" else none
    jsonParse := fun s => if s == "pkg-manifest" then some claim8Manifest else none }

/-- The `PackageData` `findNearestMainPackageData` produces for `/app/pkg`
on that filesystem. -/
def claim8MainPd : PackageData :=
  { directory := "/app/pkg"
    packageJson := claim8Manifest
    webResolvedImports := []
    nodeResolvedImports := [] }

/-! ## Helper lemmas -/

/-- One bucket of `getSortedPluginsBy` is a plain stable filter of the
input list, provided the bucket predicate only accepts present hooks. -/
theorem filterHookBucket (key : String) (q : Option HookEntry → Bool)
    (hq : ∀ h, q h = true → h.isSome = true) :
    ∀ plugins : List Plugin,
      (((plugins.map (fun p => (p, p.hook key))).filter (fun x => x.2.isSome)).filter
          (fun x => q x.2)).map (fun x => x.1)
        = plugins.filter (fun p => q (p.hook key))
  | [] => rfl
  | p :: rest => by
    simp only [List.map_cons, List.filter_cons]
    cases hs : (p.hook key).isSome with
    | false =>
      have hqf : q (p.hook key) = false := by
        cases hqv : q (p.hook key)
        · rfl
        · exact absurd (hq _ hqv) (by simp [hs])
      simp only [hs, hqf, Bool.false_eq_true, if_false]
      exact filterHookBucket key q hq rest
    | true =>
      cases hqv : q (p.hook key)
      · simp only [hs, hqv, Bool.false_eq_true, if_true, if_false, List.filter_cons]
        exact filterHookBucket key q hq rest
      · simp only [hs, hqv, if_true, List.filter_cons, List.map_cons, List.cons.injEq,
          true_and]
        exact filterHookBucket key q hq rest

/-- Writing the per-target cache and reading the same key and target back
yields the written entry. -/
theorem getResolvedCache_set_same (pd : PackageData) (k e : String) (t : Bool) :
    (pd.setResolvedCache k e t).getResolvedCache k t = some e := by
  cases t <;>
    simp [PackageData.setResolvedCache, PackageData.getResolvedCache, objSet, objGet,
      List.find?]

/-- The loop of `findNearestPackageData` without a cache returns null
whenever the (constant) probed manifest exists but fails to load: the error
is caught and the walk continues to the root. -/
theorem findNearestPackageDataGo_swallows (env : Env) (base : String)
    (hstat : env.stat (joinPath base "package.json") = some FileKind.file)
    (hload : (loadPackageData env (joinPath base "package.json")).isOk = false) :
    ∀ fuel cur, findNearestPackageDataGo env base fuel cur none = (none, none)
  | 0, _ => rfl
  | fuel + 1, cur => by
    unfold findNearestPackageDataGo
    by_cases hc : (cur == "") = true
    · simp [hc]
    · simp only [hc, if_false, Bool.false_eq_true]
      rw [hstat]
      cases hLP : loadPackageData env (joinPath base "package.json") with
      | ok pd => rw [hLP] at hload; simp [Except.isOk, Except.toBool] at hload
      | error e =>
        simp only [hLP, beq_self_eq_true, if_true]
        by_cases hnext : (posixDirname cur == cur) = true
        · simp [hnext]
        · simp only [hnext, Bool.false_eq_true, if_false]
          exact findNearestPackageDataGo_swallows env base hstat hload fuel
            (posixDirname cur)

/-! ## Claim theorems -/

/-- Claim C1 (code bug): `findNearestPackageData` probes
`path.join(baseDirectory, 'package.json')` inside its upward walk instead of
the walked `currentDirectory`, so a readable manifest in a strict ancestor
is never found.  Here `/a/package.json` is present and readable, yet the
lookup from `/a/b` returns null; the same lookup from `/a` itself finds
it. -/
theorem claim1_findNearest_ignores_ancestors :
    (findNearestPackageData claim1Env "/a/b" none).1 = none
    ∧ (findNearestPackageData claim1Env "/a" none).1.isSome = true
    ∧ (loadPackageData claim1Env "/a/package.json").isOk = true
    ∧ claim1Env.stat "/a/package.json" = some FileKind.file :=
  ⟨rfl, rfl, rfl, rfl⟩

/-- Claim C6 counterexample: with the only `package.json` (at `/m`)
malformed, `loadPackageData` fails, yet `findNearestPackageData` returns
null and surfaces no error — the parse failure is swallowed, refuting the
claim that it is surfaced as a hard error distinct from the null result. -/
theorem claim6_counterexample :
    claim6Env.stat "/m/package.json" = some FileKind.file
    ∧ (loadPackageData claim6Env "/m/package.json").isOk = false
    ∧ findNearestPackageData claim6Env "/m" none = (none, none) :=
  ⟨rfl, rfl, rfl⟩

/-- Claim C6 (amended): on a malformed manifest the parse error raised by
`loadPackageData` is caught inside `findNearestPackageData`, which keeps
walking and returns null — no error is surfaced to the caller. -/
theorem claim6_parse_error_swallowed (env : Env) (base content : String)
    (hread : env.readFile (joinPath base "package.json") = some content)
    (hparse : env.jsonParse content = none)
    (hstat : env.stat (joinPath base "package.json") = some FileKind.file) :
    (loadPackageData env (joinPath base "package.json"))
        = .error ("SyntaxError: unexpected token in JSON, " ++ joinPath base "package.json")
    ∧ findNearestPackageData env base none = (none, none) := by
  have hload : loadPackageData env (joinPath base "package.json")
      = .error ("SyntaxError: unexpected token in JSON, " ++ joinPath base "package.json") := by
    simp [loadPackageData, hread, hparse]
  refine ⟨hload, ?_⟩
  unfold findNearestPackageData
  exact findNearestPackageDataGo_swallows env base hstat (by simp [hload, Except.isOk, Except.toBool]) _ _

/-- Claim C6 witness: the amended theorem applied to the malformed-manifest
filesystem fixture at `/m`. -/
theorem claim6_witness :
    (loadPackageData claim6Env (joinPath "/m" "package.json"))
        = .error ("SyntaxError: unexpected token in JSON, " ++ joinPath "/m" "package.json")
    ∧ findNearestPackageData claim6Env "/m" none = (none, none) :=
  claim6_parse_error_swallowed claim6Env "/m" "not json" rfl rfl rfl

/-- Claim C10: the two per-target resolution caches of a `PackageData` are
disjoint — a write for one target leaves every read for the other target
unchanged — and a read immediately after a write for the same key and
target returns the written entry. -/
theorem claim10_resolved_caches_disjoint (pd : PackageData) (key key2 entry : String) :
    ((pd.setResolvedCache key entry true).getResolvedCache key2 false
        = pd.getResolvedCache key2 false)
    ∧ ((pd.setResolvedCache key entry false).getResolvedCache key2 true
        = pd.getResolvedCache key2 true)
    ∧ (∀ targetWeb,
        (pd.setResolvedCache key entry targetWeb).getResolvedCache key targetWeb
          = some entry) := by
  refine ⟨?_, ?_, fun targetWeb => getResolvedCache_set_same pd key entry targetWeb⟩ <;>
    simp [PackageData.setResolvedCache, PackageData.getResolvedCache]

/-- Claim C5 counterexample: with B declaring its `resolveId` hook as an
object entry carrying no order, the sorter drops B entirely instead of
placing it in the middle bucket: the claimed output `[A, B, D, C]` is not
produced. -/
theorem claim5_counterexample :
    getSortedPluginsBy "resolveId" [pluginA, pluginBobj, pluginC, pluginD]
        = [pluginA, pluginD, pluginC]
    ∧ (pluginBobj.hook "resolveId").isSome = true
    ∧ getSortedPluginsBy "resolveId" [pluginA, pluginBobj, pluginC, pluginD]
        ≠ [pluginA, pluginBobj, pluginD, pluginC] := by
  refine ⟨by decide, by decide, by decide⟩

/-- Claim C5 (amended): the sorter returns the plugins whose hook entry is
ordered `pre`, then those whose entry is a bare handler (in original
order), then those ordered `post` — object entries with no declared order
are omitted; on the concrete example with bare-handler B and D the result
is `[A, B, D, C]`. -/
theorem claim5_sorter_partition (key : String) (plugins : List Plugin) :
    getSortedPluginsBy key plugins
        = plugins.filter (fun p => hookIsPre (p.hook key))
          ++ plugins.filter (fun p => hookIsFn (p.hook key))
          ++ plugins.filter (fun p => hookIsPost (p.hook key))
    ∧ getSortedPluginsBy "resolveId" [pluginA, pluginB, pluginC, pluginD]
        = [pluginA, pluginB, pluginD, pluginC] := by
  constructor
  · simp only [getSortedPluginsBy]
    rw [filterHookBucket key hookIsPre
        (by intro h hh; cases h <;> simp_all [hookIsPre]),
      filterHookBucket key hookIsFn
        (by intro h hh; cases h <;> simp_all [hookIsFn]),
      filterHookBucket key hookIsPost
        (by intro h hh; cases h <;> simp_all [hookIsPost])]
  · decide

/-- Membership in the fold underlying `jsSetDedup`. -/
theorem mem_dedup_foldl (a : String) : ∀ (xs acc : List String),
    (a ∈ xs.foldl (fun acc x => if acc.contains x then acc else x :: acc) acc)
      ↔ (a ∈ acc ∨ a ∈ xs)
  | [], acc => by simp
  | x :: xs, acc => by
    rw [List.foldl_cons, mem_dedup_foldl a xs]
    by_cases h : acc.contains x = true
    · have hx : x ∈ acc := by simpa using h
      simp only [h, if_true, List.mem_cons]
      constructor
      · rintro (h1 | h1)
        · exact Or.inl h1
        · exact Or.inr (Or.inr h1)
      · rintro (h1 | h1 | h1)
        · exact Or.inl h1
        · exact Or.inl (h1 ▸ hx)
        · exact Or.inr h1
    · simp only [h, if_false, Bool.false_eq_true, List.mem_cons]
      tauto

/-- `jsSetDedup` keeps exactly the members of its input. -/
theorem mem_jsSetDedup (xs : List String) (a : String) :
    a ∈ jsSetDedup xs ↔ a ∈ xs := by
  unfold jsSetDedup
  rw [List.mem_reverse, mem_dedup_foldl]
  simp

/-- Claim C7 (amended): when no `overrideConditions` are supplied (as in
every call except the config-bundler's), the condition set handed to
resolve.exports contains `production` iff the production flag is set and
`development` iff it is not, the `browser` dimension is on iff the target
is web and `node` is not among the caller-supplied conditions, and
`require` semantics are on iff the `isRequire` flag is set and `import` is
not among the caller-supplied conditions. -/
theorem claim7_conditions_default (options : InternalResolveOptions) (targetWeb : Bool)
    (hov : options.overrideConditions = none) :
    ("production" ∈ (exportsCallArgs options targetWeb).conditions
        ↔ options.isProduction = true)
    ∧ ("development" ∈ (exportsCallArgs options targetWeb).conditions
        ↔ options.isProduction = false)
    ∧ ((exportsCallArgs options targetWeb).browser = true
        ↔ (targetWeb = true ∧ "node" ∉ options.conditions))
    ∧ ((exportsCallArgs options targetWeb).requireCond = true
        ↔ (options.isRequire = true ∧ "import" ∉ options.conditions)) := by
  have hadd : ∀ a, a ∈ exportsAdditionalConditions options
      ↔ a ∈ ["production", "development", "module"] ++ options.conditions := by
    intro a
    unfold exportsAdditionalConditions
    rw [hov, mem_jsSetDedup]
  refine ⟨?_, ?_, ?_, ?_⟩
  · simp only [exportsCallArgs, exportsFilteredConditions, List.mem_filter]
    rw [hadd]
    cases hp : options.isProduction <;> simp
  · simp only [exportsCallArgs, exportsFilteredConditions, List.mem_filter]
    rw [hadd]
    cases hp : options.isProduction <;> simp
  · simp only [exportsCallArgs, Bool.and_eq_true, Bool.not_eq_true']
    constructor
    · rintro ⟨hw, hn⟩
      have hn2 : "node" ∉ exportsAdditionalConditions options := by simpa using hn
      refine ⟨hw, fun hmem => ?_⟩
      exact hn2 ((hadd "node").mpr (by simp [hmem]))
    · rintro ⟨hw, hn⟩
      refine ⟨hw, ?_⟩
      have : "node" ∉ exportsAdditionalConditions options := by
        rw [hadd]
        simp [hn]
      simpa using this
  · simp only [exportsCallArgs, Bool.and_eq_true, Bool.not_eq_true']
    constructor
    · rintro ⟨hw, hn⟩
      have hn2 : "import" ∉ exportsAdditionalConditions options := by simpa using hn
      refine ⟨hw, fun hmem => ?_⟩
      exact hn2 ((hadd "import").mpr (by simp [hmem]))
    · rintro ⟨hw, hn⟩
      refine ⟨hw, ?_⟩
      have : "import" ∉ exportsAdditionalConditions options := by
        rw [hadd]
        simp [hn]
      simpa using this

/-- Claim C9 (code bug): `generateCodeFrame` renders the frame lines into
`res` but has no return statement, so for every input — here a two-line
source with the caret at offset 0 — it returns `undefined` rather than the
rendered code-frame string (the lines it computed and discarded are not
empty). -/
theorem claim9_generateCodeFrame_returns_undefined :
    generateCodeFrame "const a = 1\nconst b = 2" (Sum.inl 0) none = none
    ∧ codeFrameLines "const a = 1\nconst b = 2" (Sum.inl 0) none ≠ [] :=
  ⟨rfl, by decide⟩

/-- Claim C7 counterexample: with `overrideConditions := ['node']` (as the
config bundler passes in the source) and the production flag set, the
condition set handed to the library is `['node']`: `production` is absent
although the production flag is set, refuting the claimed
characterization. -/
theorem claim7_counterexample :
    claim7OverrideOptions.isProduction = true
    ∧ (exportsCallArgs claim7OverrideOptions true).conditions = ["node"]
    ∧ "production" ∉ (exportsCallArgs claim7OverrideOptions true).conditions := by
  refine ⟨rfl, by decide, by decide⟩

/-- Claim C7 witness: the amended characterization instantiated at the
plain dev options and a web target. -/
theorem claim7_witness :
    ("production" ∈ (exportsCallArgs devOptions true).conditions
        ↔ devOptions.isProduction = true)
    ∧ ("development" ∈ (exportsCallArgs devOptions true).conditions
        ↔ devOptions.isProduction = false)
    ∧ ((exportsCallArgs devOptions true).browser = true
        ↔ (true = true ∧ "node" ∉ devOptions.conditions))
    ∧ ((exportsCallArgs devOptions true).requireCond = true
        ↔ (devOptions.isRequire = true ∧ "import" ∉ devOptions.conditions)) :=
  claim7_conditions_default devOptions true rfl

/-- Claim C2 (amended): once a manifest carries an object-form exports map,
a deep subpath the library reports as undefined makes `resolveDeepImport`
throw a `Package subpath ... is not defined by "exports"` error — it does
not return undefined — and no filesystem probing happens: the outcome does
not depend on the filesystem environment at all. -/
theorem claim2_exports_miss_throws (env : Env) (lib : ExportsLib)
    (options : InternalResolveOptions) (fuel : Nat) (id : String)
    (pd : PackageData) (targetWeb : Bool)
    (hcache : pd.getResolvedCache id targetWeb = none)
    (htruthy : optTruthy (pd.packageJson.get "exports") = true)
    (hobj : (pd.packageJson.get "exports").map JValue.isObj = some true)
    (hlib : resolveExportsOrImports lib pd.packageJson (splitFileAndPostfix id).1
        options targetWeb .exportsKind = .ok none) :
    resolveDeepImport env lib options fuel id pd targetWeb
      = .error (deepImportNotDefinedMsg none pd.directory) := by
  unfold resolveDeepImport
  rw [hcache]
  unfold resolveDeepImportUncached
  rw [htruthy, if_pos rfl, hobj, hlib]
  rfl

/-- Claim C2 counterexample: the concrete package with
`exports: {'.': './index.js'}` and the subpath `./foo` (undefined in the
map): the resolution engine throws instead of returning undefined. -/
theorem claim2_counterexample :
    resolveDeepImport emptyFsEnv emptyExportsLib devOptions 50 "./foo" claim2Pd true
        = .error (deepImportNotDefinedMsg none "/root/node_modules/mylib")
    ∧ emptyExportsLib.exportsFn claim2Pd.packageJson "./foo"
        (exportsCallArgs devOptions true) = .ok none :=
  ⟨rfl, rfl⟩

/-- Claim C2 witness: the amended theorem applied to that same concrete
package, subpath and (empty) filesystem. -/
theorem claim2_witness :
    resolveDeepImport emptyFsEnv emptyExportsLib devOptions 7 "./foo" claim2Pd true
      = .error (deepImportNotDefinedMsg none claim2Pd.directory) :=
  claim2_exports_miss_throws emptyFsEnv emptyExportsLib devOptions 7 "./foo" claim2Pd
    true rfl rfl rfl rfl

/-- A successful `resolveDeepImportFsPart` wrote its result into the
per-target cache, and the result is a truthy string. -/
theorem resolveDeepImportFsPart_cache (env : Env) (lib : ExportsLib)
    (options : InternalResolveOptions) (fuel : Nat) (pd : PackageData)
    (targetWeb ex : Bool) (id : String) (rel : Option String) (r : String)
    (pd' : PackageData)
    (h : resolveDeepImportFsPart env lib options fuel pd targetWeb ex id rel
        = .ok (some r, pd')) :
    pd'.getResolvedCache id targetWeb = some r ∧ r ≠ "" := by
  unfold resolveDeepImportFsPart at h
  split at h
  case h_2 => simp at h
  case h_1 rid =>
    split at h
    case isFalse => simp at h
    case isTrue hrid =>
      split at h
      case h_1 => simp at h
      case h_3 => simp at h
      case h_2 resolved =>
        split at h
        case isFalse => simp at h
        case isTrue hres =>
          simp only [Except.ok.injEq, Prod.mk.injEq, Option.some.injEq] at h
          obtain ⟨hr, hpd⟩ := h
          rw [← hr, ← hpd]
          exact ⟨getResolvedCache_set_same pd id _ targetWeb, by simpa using hres⟩

/-- A successful uncached `resolveDeepImport` wrote its truthy result into
the per-target cache. -/
theorem resolveDeepImportUncached_cache (env : Env) (lib : ExportsLib)
    (options : InternalResolveOptions) (fuel : Nat) (id : String)
    (pd : PackageData) (targetWeb : Bool) (r : String) (pd' : PackageData)
    (h : resolveDeepImportUncached env lib options fuel id pd targetWeb
        = .ok (some r, pd')) :
    pd'.getResolvedCache id targetWeb = some r ∧ r ≠ "" := by
  unfold resolveDeepImportUncached at h
  split at h
  case isTrue he =>
    split at h
    case isFalse => simp at h
    case isTrue hobj =>
      split at h
      case h_1 => simp at h
      case h_3 => simp at h
      case h_2 eid =>
        split at h
        case isTrue => simp at h
        case isFalse =>
          exact resolveDeepImportFsPart_cache env lib options fuel pd targetWeb true
            id _ r pd' h
  case isFalse he =>
    split at h
    case h_2 => exact resolveDeepImportFsPart_cache _ _ _ _ _ _ _ _ _ _ _ h
    case h_1 bf =>
      split at h
      case isFalse => exact resolveDeepImportFsPart_cache _ _ _ _ _ _ _ _ _ _ _ h
      case isTrue hguard =>
        split at h
        case h_2 => exact resolveDeepImportFsPart_cache _ _ _ _ _ _ _ _ _ _ _ h
        case h_1 bfields =>
          split at h
          case h_2 => exact resolveDeepImportFsPart_cache _ _ _ _ _ _ _ _ _ _ _ h
          case h_1 v =>
            split at h
            case isTrue => exact resolveDeepImportFsPart_cache _ _ _ _ _ _ _ _ _ _ _ h
            case isFalse =>
              split at h
              case h_2 => exact resolveDeepImportFsPart_cache _ _ _ _ _ _ _ _ _ _ _ h
              case h_1 =>
                simp only [Except.ok.injEq, Prod.mk.injEq, Option.some.injEq] at h
                obtain ⟨hr, hpd⟩ := h
                have ht : targetWeb = true := by
                  have hg := hguard
                  simp only [Bool.and_eq_true] at hg
                  exact hg.1.1
                subst ht
                rw [← hr, ← hpd]
                refine ⟨?_, by decide⟩
                simp [PackageData.getResolvedCache, objGet, objSet, List.find?]

/-- A successful `resolveDeepImport` leaves (or puts) its truthy result in
the per-target cache of the returned `PackageData`. -/
theorem resolveDeepImport_ok_cache (env : Env) (lib : ExportsLib)
    (options : InternalResolveOptions) (fuel : Nat) (id : String)
    (pd : PackageData) (targetWeb : Bool) (r : String) (pd' : PackageData)
    (h : resolveDeepImport env lib options fuel id pd targetWeb
        = .ok (some r, pd')) :
    pd'.getResolvedCache id targetWeb = some r ∧ r ≠ "" := by
  unfold resolveDeepImport at h
  split at h
  case h_2 =>
    exact resolveDeepImportUncached_cache env lib options fuel id pd targetWeb r pd' h
  case h_1 cache hcache =>
    split at h
    case isFalse =>
      exact resolveDeepImportUncached_cache env lib options fuel id pd targetWeb r pd' h
    case isTrue hc =>
      simp only [Except.ok.injEq, Prod.mk.injEq, Option.some.injEq] at h
      obtain ⟨hr, hpd⟩ := h
      subst hr
      subst hpd
      exact ⟨hcache, by simpa using hc⟩

/-- Claim C4: if a call to `resolveDeepImport` for `(id, targetWeb)` on a
manifest returns a resolved path, a second call with the same subpath,
target and options on the resulting manifest state returns the identical
path from the per-manifest cache — for any filesystem, library model and
fuel, i.e. without touching the filesystem again. -/
theorem claim4_deep_import_cached (env env2 : Env) (lib lib2 : ExportsLib)
    (options : InternalResolveOptions) (fuel fuel2 : Nat) (id : String)
    (pd : PackageData) (targetWeb : Bool) (r : String) (pd' : PackageData)
    (h : resolveDeepImport env lib options fuel id pd targetWeb
        = .ok (some r, pd')) :
    resolveDeepImport env2 lib2 options fuel2 id pd' targetWeb = .ok (some r, pd') := by
  obtain ⟨hc, hr⟩ := resolveDeepImport_ok_cache env lib options fuel id pd targetWeb r pd' h
  unfold resolveDeepImport
  rw [hc]
  simp [hr]

/-- Claim C4 witness: resolving `./bar` in `mylib` (no exports map, the
file present) memoizes the hit; the follow-up call on the cached state —
run against an empty filesystem and zero fuel — still returns it. -/
theorem claim4_witness :
    resolveDeepImport emptyFsEnv emptyExportsLib devOptions 0 "./bar" claim4CachedPd
      true = .ok (some "/root/node_modules/mylib/bar.js", claim4CachedPd) :=
  claim4_deep_import_cached claim4Env emptyFsEnv emptyExportsLib emptyExportsLib
    devOptions 50 0 "./bar" claim4Pd true "/root/node_modules/mylib/bar.js"
    claim4CachedPd rfl

/-- A failing `resolvePackageEntry` always throws the `packageEntryFailure`
message, which names the requested package id (or, in the model, the
call-stack sentinel). -/
theorem resolvePackageEntry_error_shape (env : Env) (lib : ExportsLib)
    (options : InternalResolveOptions) (fuel : Nat) (id : String)
    (pd : PackageData) (targetWeb : Bool) (e : String)
    (h : resolvePackageEntry env lib options fuel id pd targetWeb = .error e) :
    e = stackOverflowMsg ∨ ∃ d, e = packageEntryFailureMsg id d := by
  cases fuel with
  | zero =>
    unfold resolvePackageEntry at h
    simp only [Except.error.injEq] at h
    exact Or.inl h.symm
  | succ n =>
    unfold resolvePackageEntry at h
    split at h
    case h_2 =>
      split at h
      case h_1 => simp at h
      case h_2 =>
        simp only [Except.error.injEq] at h
        exact Or.inr ⟨none, h.symm⟩
      case h_3 e2 heq =>
        simp only [Except.error.injEq] at h
        exact Or.inr ⟨some e2, h.symm⟩
    case h_1 cached =>
      split at h
      case isTrue => simp at h
      case isFalse =>
        split at h
        case h_1 => simp at h
        case h_2 =>
          simp only [Except.error.injEq] at h
          exact Or.inr ⟨none, h.symm⟩
        case h_3 e2 heq =>
          simp only [Except.error.injEq] at h
          exact Or.inr ⟨some e2, h.symm⟩

/-- Claim C3 (amended): the not-found/malformed contract of
`tryNodeResolve`.  When no manifest is located it returns undefined and
does not throw (whether the optional-peer guard is off, no named ancestor
manifest exists, or the found one does not declare a matching optional
peer).  When a manifest is located: a failing package-entry resolution
throws, and that error names the package; a deep-subpath error (an exports
map that does not define the subpath) also propagates as a throw; but a
deep subpath that merely fails to resolve (no exports map involved) makes
`tryNodeResolve` return undefined rather than throw. -/
theorem claim3_not_found_vs_malformed (env : Env) (lib : ExportsLib) (fuel : Nat)
    (id : String) (importer : Option String) (options : InternalResolveOptions)
    (targetWeb : Bool) (dOpt : Option DepsOptimizer) (ssr : Bool)
    (ext : Option Bool) (ale : Bool) (cache c1 c2 : Option PackageCache)
    (pkg pkgB mainPd : PackageData) (e pm : String) :
    ((resolvePackageData env (tnrPkgId id)
          (tnrBasedir env (tnrPkgId id) importer options)
          options.preserveSymlinks cache = (none, c1)) →
      ((tnrBasedir env (tnrPkgId id) importer options != options.root)
          && !isBuiltin id && !(strContainsSub id "\x00") && bareImportTest id)
          = false →
      tryNodeResolve env lib fuel id importer options targetWeb dOpt ssr ext ale
        cache = .ok (none, c1))
    ∧ ((resolvePackageData env (tnrPkgId id)
          (tnrBasedir env (tnrPkgId id) importer options)
          options.preserveSymlinks cache = (none, c1)) →
      ((tnrBasedir env (tnrPkgId id) importer options != options.root)
          && !isBuiltin id && !(strContainsSub id "\x00") && bareImportTest id)
          = true →
      findNearestMainPackageData env (tnrBasedir env (tnrPkgId id) importer options)
          c1 = .ok (none, c2) →
      tryNodeResolve env lib fuel id importer options targetWeb dOpt ssr ext ale
        cache = .ok (none, c2))
    ∧ ((resolvePackageData env (tnrPkgId id)
          (tnrBasedir env (tnrPkgId id) importer options)
          options.preserveSymlinks cache = (none, c1)) →
      ((tnrBasedir env (tnrPkgId id) importer options != options.root)
          && !isBuiltin id && !(strContainsSub id "\x00") && bareImportTest id)
          = true →
      findNearestMainPackageData env (tnrBasedir env (tnrPkgId id) importer options)
          c1 = .ok (some mainPd, c2) →
      (optTruthy ((mainPd.packageJson.get "peerDependencies").bind
            (fun o => o.get id))
          && optTruthy (((mainPd.packageJson.get "peerDependenciesMeta").bind
            (fun o => o.get id)).bind (fun o => o.get "optional"))) = false →
      tryNodeResolve env lib fuel id importer options targetWeb dOpt ssr ext ale
        cache = .ok (none, c2))
    ∧ ((resolvePackageData env (tnrPkgId id)
          (tnrBasedir env (tnrPkgId id) importer options)
          options.preserveSymlinks cache = (some pkg, c1)) →
      deepImportMatch id = none →
      options.tryEsmOnly = false →
      resolvePackageEntry env lib options fuel (tnrPkgId id) pkg targetWeb
          = .error e →
      tryNodeResolve env lib fuel id importer options targetWeb dOpt ssr ext ale
        cache = .error e)
    ∧ (resolvePackageEntry env lib options fuel id pkg targetWeb = .error e →
      e = stackOverflowMsg ∨ ∃ d, e = packageEntryFailureMsg id d)
    ∧ ((resolvePackageData env (tnrPkgId id)
          (tnrBasedir env (tnrPkgId id) importer options)
          options.preserveSymlinks cache = (some pkg, c1)) →
      deepImportMatch id = some pm →
      options.tryEsmOnly = false →
      resolveDeepImport env lib options fuel ("." ++ id.drop (tnrPkgId id).length)
          pkg targetWeb = .error e →
      tryNodeResolve env lib fuel id importer options targetWeb dOpt ssr ext ale
        cache = .error e)
    ∧ ((resolvePackageData env (tnrPkgId id)
          (tnrBasedir env (tnrPkgId id) importer options)
          options.preserveSymlinks cache = (some pkg, c1)) →
      deepImportMatch id = some pm →
      options.tryEsmOnly = false →
      resolveDeepImport env lib options fuel ("." ++ id.drop (tnrPkgId id).length)
          pkg targetWeb = .ok (none, pkgB) →
      tryNodeResolve env lib fuel id importer options targetWeb dOpt ssr ext ale
        cache = .ok (none, c1)) := by
  refine ⟨?_, ?_, ?_, ?_, ?_, ?_, ?_⟩
  · intro h1 hguard
    simp only [tryNodeResolve]
    rw [h1]
    simp only [hguard, Bool.false_eq_true, if_false]
  · intro h1 hguard h6
    simp only [tryNodeResolve]
    rw [h1]
    simp only [hguard, if_true]
    rw [h6]
  · intro h1 hguard h6 hpeer
    simp only [tryNodeResolve]
    rw [h1]
    simp only [hguard, if_true]
    rw [h6]
    simp only [hpeer, Bool.false_eq_true, if_false]
  · intro h1 hdm hesm hent
    simp only [tryNodeResolve]
    rw [h1]
    simp only [hdm, Option.isSome_none, Bool.false_eq_true, if_false]
    rw [hent, hesm]
    simp
  · intro h
    exact resolvePackageEntry_error_shape env lib options fuel id pkg targetWeb e h
  · intro h1 hdm hesm hdeep
    simp only [tryNodeResolve]
    rw [h1]
    simp only [hdm, Option.isSome_some, if_true]
    rw [hdeep, hesm]
    simp
  · intro h1 hdm hesm hdeep
    simp only [tryNodeResolve]
    rw [h1]
    simp only [hdm, Option.isSome_some, if_true]
    rw [hdeep]
    simp only [hesm, Bool.and_false, Bool.false_eq_true, if_false]
    simp [optStrTruthy]

/-- Claim C3 counterexample: `mylib` is installed (its manifest is located)
but has no exports map, and the deep subpath `mylib/bar` does not exist on
disk; `tryNodeResolve` returns undefined instead of throwing an error
naming the package, refuting the claim that every located-but-unresolvable
case throws. -/
theorem claim3_counterexample :
    (resolvePackageData claim3Env "mylib" "/root/src" false none).1.isSome = true
    ∧ tryNodeResolve claim3Env emptyExportsLib 50 "mylib/bar"
        (some "/root/src/a.ts") devOptions true none false none true none
        = .ok (none, none) :=
  ⟨rfl, rfl⟩

/-- A string is a prefix of itself followed by anything. -/
theorem strStartsWith_append_left (a b : String) :
    strStartsWith (a ++ b) a = true := by
  have hdata : (a ++ b).toList = a.toList ++ b.toList := by
    cases a with
    | mk da =>
      cases b with
      | mk db => rfl
  rw [strStartsWith, hdata, List.isPrefixOf_iff_prefix]
  exact List.prefix_append _ _

/-- Claim C8 (amended): a bare specifier whose package is not found, where
the code's named-ancestor-manifest lookup finds a manifest declaring the
specifier as an optional peer dependency, resolves to the
`__vite-optional-peer-dep`-prefixed sentinel id rather than undefined; and
loading that sentinel id in non-production mode yields module text that
throws an error naming the missing dependency and its declaring package.
(In production mode the load yields `export default {}` instead — the
correction — and, as reported under C1, the ancestor lookup itself only
finds a manifest in the base directory or the cache.) -/
theorem claim8_optional_peer_sentinel (env : Env) (lib : ExportsLib) (fuel : Nat)
    (id : String) (importer : Option String) (options : InternalResolveOptions)
    (targetWeb : Bool) (dOpt : Option DepsOptimizer) (ssr : Bool)
    (ext : Option Bool) (ale : Bool) (cache c1 c2 : Option PackageCache)
    (mainPd : PackageData) (pkgId basedir sid : String)
    (hpk : pkgId = tnrPkgId id)
    (hbd : basedir = tnrBasedir env pkgId importer options)
    (h1 : resolvePackageData env pkgId basedir options.preserveSymlinks cache
        = (none, c1))
    (h2 : (basedir != options.root) = true)
    (h3 : isBuiltin id = false)
    (h4 : strContainsSub id "\x00" = false)
    (h5 : bareImportTest id = true)
    (h6 : findNearestMainPackageData env basedir c1 = .ok (some mainPd, c2))
    (h7 : optTruthy ((mainPd.packageJson.get "peerDependencies").bind
        (fun o => o.get id)) = true)
    (h8 : optTruthy (((mainPd.packageJson.get "peerDependenciesMeta").bind
        (fun o => o.get id)).bind (fun o => o.get "optional")) = true)
    (hsid : sid = optionalPeerDepId ++ ":" ++ id ++ ":"
        ++ jsShow (mainPd.packageJson.get "name"))
    (h9 : strStartsWith sid browserExternalId = false)
    (h10 : strSplitOnChar ':' sid
        = [optionalPeerDepId, id, jsShow (mainPd.packageJson.get "name")]) :
    tryNodeResolve env lib fuel id importer options targetWeb dOpt ssr ext ale cache
        = .ok (some { id := sid }, c2)
    ∧ strStartsWith sid optionalPeerDepId = true
    ∧ resolvePluginLoad false sid
        = some (optionalPeerDepDevCode id (jsShow (mainPd.packageJson.get "name"))) := by
  subst hpk
  subst hbd
  refine ⟨?_, ?_, ?_⟩
  · simp only [tryNodeResolve]
    rw [h1]
    simp only [h2, h3, h4, h5, Bool.not_false, Bool.and_true, Bool.true_and, if_true]
    rw [h6]
    simp only [h7, h8, Bool.and_self, if_true, hsid]
  · rw [hsid]
    exact strStartsWith_append_left optionalPeerDepId _
  · rw [resolvePluginLoad, h9, if_neg (by simp)]
    rw [if_pos (by rw [hsid]; exact strStartsWith_append_left optionalPeerDepId _)]
    simp only [Bool.false_eq_true, if_false, h10]
    rfl

/-- Claim C8 counterexample: in production mode, loading an optional-peer
sentinel id yields `export default {}` — module text that throws nothing —
refuting the claim that loading the sentinel always yields code that
throws an error naming the missing dependency (dev mode does). -/
theorem claim8_counterexample :
    resolvePluginLoad true "__vite-optional-peer-dep:foo:pkg"
        = some "export default \x7b\x7d"
    ∧ strContainsSub "export default \x7b\x7d" "throw" = false
    ∧ resolvePluginLoad false "__vite-optional-peer-dep:foo:pkg"
        = some (optionalPeerDepDevCode "foo" "pkg") :=
  ⟨rfl, by decide, rfl⟩

/-- Claim C8 witness: the amended theorem on the concrete filesystem where
`/app/pkg/package.json` declares `foo` as an optional peer dependency and
`foo` is installed nowhere. -/
theorem claim8_witness :
    tryNodeResolve claim8Env emptyExportsLib 50 "foo" (some "/app/pkg/main.ts")
        devOptions true none false none true none
        = .ok (some { id := "__vite-optional-peer-dep:foo:pkg" }, none)
    ∧ strStartsWith "__vite-optional-peer-dep:foo:pkg" optionalPeerDepId = true
    ∧ resolvePluginLoad false "__vite-optional-peer-dep:foo:pkg"
        = some (optionalPeerDepDevCode "foo"
            (jsShow (claim8MainPd.packageJson.get "name"))) := by
  have h := claim8_optional_peer_sentinel claim8Env emptyExportsLib 50 "foo"
    (some "/app/pkg/main.ts") devOptions true none false none true none none none
    claim8MainPd "foo" "/app/pkg" "__vite-optional-peer-dep:foo:pkg"
    rfl rfl rfl rfl rfl rfl rfl rfl rfl rfl rfl (by decide) rfl
  exact h

end Villv
